import Mathlib

/-!
# Verification development for the `telegram` package

Shallow embedding of `telegram/handle_voice.go` and `telegram/longpoll.go`.

* Go strings are modelled as Lean strings (sequences of Unicode code points).
  The texts handled here come out of JSON decoding, which yields valid UTF-8,
  and the separator `","` is a single ASCII byte, so splitting and trimming on
  code points agrees with splitting and trimming on bytes.
* Calls to collaborators (Telegram bot API, HTTP, the transcription client, the
  database package) are recorded in a trace of events; their outcomes are
  given by a `World`, whose answers may depend on everything that happened
  before the call.
-/

namespace Telegram

/-! ## Go standard library: `unicode.IsSpace`, `strings.TrimSpace`, `strings.Split`, `strings.Join` -/

/-- The predicate `unicode.IsSpace`: the Latin-1 spaces
`'\t', '\n', '\v', '\f', '\r', ' ', U+0085, U+00A0` and the other code points
with the Unicode White_Space property. -/
def isSpace (c : Char) : Bool :=
  let n := c.toNat
  n == 0x09 || n == 0x0A || n == 0x0B || n == 0x0C || n == 0x0D || n == 0x20 ||
  n == 0x85 || n == 0xA0 || n == 0x1680 || (0x2000 ≤ n && n ≤ 0x200A) ||
  n == 0x2028 || n == 0x2029 || n == 0x202F || n == 0x205F || n == 0x3000

/-- The function `strings.TrimSpace` on the code points of a string: leading white space is
removed first, then trailing white space. -/
def trimSpaceChars (l : List Char) : List Char :=
  List.rdropWhile isSpace (List.dropWhile isSpace l)

/-- The function `strings.TrimSpace`. -/
def TrimSpace (s : String) : String :=
  ⟨trimSpaceChars s.data⟩

/-- The pieces of a code point sequence between occurrences of `sep`; a sequence with `n`
occurrences of `sep` has `n + 1` pieces, the empty sequence has the one piece `[]`. -/
def splitChars (sep : Char) : List Char → List (List Char)
  | [] => [[]]
  | c :: cs =>
    if c = sep then [] :: splitChars sep cs
    else
      match splitChars sep cs with
      | [] => [[c]]
      | p :: ps => (c :: p) :: ps

/-- The function `strings.Split(s, sep)` for a separator of one character, as in
`strings.Split(text, ",")`. -/
def Split (s : String) (sep : Char) : List String :=
  (splitChars sep s.data).map String.mk

/-- The function `strings.Join`. -/
def Join (elems : List String) (sep : String) : String :=
  sep.intercalate elems

/-! ## `handle_voice.go`: the token list of a transcribed text -/

/-- The token list built in `handleVoice`:
`lo.Map(strings.Split(text, ","), func(s string, _ int) string { return strings.TrimSpace(s) })`. -/
def medicineNames (text : String) : List String :=
  (Split text ',').map TrimSpace

/-! ## Data of the Telegram bot API, the transcription client and the `model` package -/

/-- A Go `error`, identified with the text returned by its `Error()` method; a Go `error` value
that may be `nil` is an `Option Error`. -/
abbrev Error := String

/-- The type `gotgbot.Chat`, reduced to the field the handlers read. -/
structure Chat where
  Id : Int
  deriving DecidableEq, Repr

/-- The type `gotgbot.Voice`, reduced to the fields the handlers read. -/
structure Voice where
  FileId : String
  Duration : Int
  deriving DecidableEq, Repr

/-- The type `gotgbot.WebAppData`, reduced to the field the handlers read. -/
structure WebAppData where
  Data : String
  deriving DecidableEq, Repr

/-- The type `gotgbot.Message`, reduced to the fields the handlers read; the pointer fields
`Voice` and `WebAppData` may be `nil`. -/
structure Message where
  MessageId : Int
  Chat : Chat
  Voice : Option Voice
  WebAppData : Option WebAppData
  deriving DecidableEq, Repr

/-- The type `ext.Context`, reduced to the field the handlers read. -/
structure Context where
  EffectiveMessage : Message
  deriving DecidableEq, Repr

/-- The type `gotgbot.File`, reduced to the fields the handlers read. -/
structure File where
  FileId : String
  FilePath : String
  deriving DecidableEq, Repr

/-- The handle of an open HTTP response body (`io.ReadCloser`). -/
abbrev ReadCloser := Nat

/-- The type `http.Response`, reduced to the field the handlers read. -/
structure Response where
  Body : ReadCloser
  deriving DecidableEq, Repr

/-- The type `openai.AudioRequest`, with the fields the handlers set. -/
structure AudioRequest where
  Model : String
  Reader : ReadCloser
  FilePath : String
  Prompt : String
  Language : String
  deriving DecidableEq, Repr

/-- The constant `openai.Whisper1`. -/
def Whisper1 : String := "whisper-1"

/-- The constant `time.Second`, in nanoseconds. -/
def Second : Nat := 1000000000

/-- The type `model.Apteka`; its declaration is not part of the sources at hand, the fields are
the ones `toMessage` reads. -/
structure Apteka where
  Name : String
  Address : String
  Phone : String
  deriving DecidableEq, Repr

/-- The type `model.User`; its declaration is not part of the sources at hand, the fields are the
ones `handleWebAppApteka` sets. Identifiers are integers; the conversion `int64(aptekaId)` is taken
to be the identity. -/
structure User where
  ChatId : Int
  AptekaId : Int
  deriving DecidableEq, Repr

/-- The type `lo.Tuple2[model.Apteka, []string]`. -/
abbrev Tuple2 := Apteka × List String

/-- The type `gotgbot.SendMessageOpts`; the handlers only build the empty value. -/
structure SendMessageOpts where
  deriving DecidableEq, Repr

/-- The handle `database.TransactionOps` of an open transaction. -/
abbrev TransactionOps := Nat

/-- The value `ext.DispatcherAction`. -/
inductive DispatcherAction where
  | Noop
  deriving DecidableEq, Repr

/-! ## Effects -/

/-- A call that leaves the process, or a pause of it. -/
inductive Event where
  | GetFile (fileId : String)
  | HttpGet (url : String)
  | CreateTranscription (req : AudioRequest)
  | BodyClose (body : ReadCloser)
  | Printf (text : String)
  | LogPrintf (text : String)
  | LogPrintln (text : String)
  | SendMessage (chatId : Int) (text : String)
  | DeleteMessage (chatId : Int) (messageId : Int)
  | Sleep (nanoseconds : Nat)
  | Begin
  | Commit (tx : TransactionOps)
  | Rollback (tx : TransactionOps)
  | MedicineSearch (tx : TransactionOps) (names : List String)
  | AptekaSearch (tx : TransactionOps) (ids : List Int)
  | AptekaInsert (tx : TransactionOps) (apteka : Apteka)
  | UserInsert (tx : TransactionOps) (user : User)
  deriving DecidableEq, Repr

/-- The persisted pharmacy and owner rows. -/
structure Store where
  aptekas : List (Int × Apteka)
  users : List User
  deriving DecidableEq, Repr

/-- The state threaded through a handler: the events so far, oldest first, and the rows in the
database (inside a transaction callback: the rows as the transaction sees them). -/
structure State where
  trace : List Event
  store : Store
  deriving DecidableEq, Repr

/-- The collaborators of `LongPoll` (the bot, the HTTP client, the transcription client, the
database) and the package constants declared outside the sources at hand. The answer to a call
is a function of the events before it and of the arguments. -/
structure World where
  /-- The package constant `TextTooLongVoice`. -/
  TextTooLongVoice : String
  /-- The package constant `TextDefault`. -/
  TextDefault : String
  /-- The method `bot.GetFile`. -/
  GetFile : List Event → String → Except Error File
  /-- The method `file.URL`. -/
  FileURL : File → String
  /-- The function `http.Get`. -/
  HttpGet : List Event → String → Except Error Response
  /-- The method `openaiClient.CreateTranscription`; on success the text of the response. -/
  CreateTranscription : List Event → AudioRequest → Except Error String
  /-- The method `bot.SendMessage`; `none` is the `nil` error. -/
  SendMessage : List Event → Int → String → Option Error
  /-- The function `model.ParseAndValidate[model.Apteka]`. -/
  ParseAndValidate : String → Except Error Apteka
  /-- Opening a transaction on `lp.db`. -/
  Begin : List Event → Except Error TransactionOps
  /-- Committing a transaction; `none` is the `nil` error. -/
  Commit : List Event → TransactionOps → Option Error
  /-- The answer of `database.MedicineSearch`. -/
  MedicineSearch : List Event → TransactionOps → List String → List Int × Option Error
  /-- The answer of `database.AptekaSearch`. -/
  AptekaSearch : List Event → TransactionOps → List Int → List Tuple2 × Option Error
  /-- The answer of `database.AptekaInsert`: the identifier assigned to the new row. -/
  AptekaInsert : List Event → TransactionOps → Apteka → Except Error Int
  /-- The answer of `database.UserInsert`; `none` is the `nil` error. -/
  UserInsert : List Event → TransactionOps → User → Option Error

/-- Record an event. -/
def emit (e : Event) (s : State) : State :=
  { s with trace := s.trace ++ [e] }

/-! ## The `database` package -/

/-- Modelled from the spec: `database.Transact`, whose source is not at hand. A transaction is
opened; the callback runs on the rows as the transaction sees them; the transaction is committed
if and only if the callback returns no error, otherwise it is rolled back; a transaction that
cannot be opened or committed is a failure of the transaction itself and leaves the rows as they
were. -/
def Transact {α : Type} [Inhabited α] (lp : World)
    (f : TransactionOps → State → (α × Option Error) × State) (s : State) :
    (α × Option Error) × State :=
  let s1 := emit Event.Begin s
  match lp.Begin s.trace with
  | .error err => ((default, some err), s1)
  | .ok tx =>
    let r := f tx s1
    match r.1.2 with
    | some err => ((r.1.1, some err), { trace := r.2.trace ++ [Event.Rollback tx], store := s.store })
    | none =>
      match lp.Commit r.2.trace tx with
      | some err => ((r.1.1, some err), { trace := r.2.trace ++ [Event.Commit tx], store := s.store })
      | none => ((r.1.1, none), { trace := r.2.trace ++ [Event.Commit tx], store := r.2.store })

/-- Modelled from the spec: `database.MedicineSearch`, whose source is not at hand: a read inside
the transaction that resolves names to medicine identifiers and writes nothing. -/
def MedicineSearch (lp : World) (tx : TransactionOps) (medicineNames : List String) (s : State) :
    (List Int × Option Error) × State :=
  (lp.MedicineSearch s.trace tx medicineNames, emit (Event.MedicineSearch tx medicineNames) s)

/-- Modelled from the spec: `database.AptekaSearch`, whose source is not at hand: a read inside
the transaction that maps medicine identifiers to pharmacy groups and writes nothing. -/
def AptekaSearch (lp : World) (tx : TransactionOps) (mIds : List Int) (s : State) :
    (List Tuple2 × Option Error) × State :=
  (lp.AptekaSearch s.trace tx mIds, emit (Event.AptekaSearch tx mIds) s)

/-- Modelled from the spec: `database.AptekaInsert`, whose source is not at hand: a write inside
the transaction that on success adds the pharmacy row and returns the identifier assigned to it,
and on failure adds nothing. -/
def AptekaInsert (lp : World) (tx : TransactionOps) (apteka : Apteka) (s : State) :
    (Int × Option Error) × State :=
  let s1 := emit (Event.AptekaInsert tx apteka) s
  match lp.AptekaInsert s.trace tx apteka with
  | .error err => ((0, some err), s1)
  | .ok aptekaId =>
    ((aptekaId, none),
      { s1 with store := { s1.store with aptekas := s1.store.aptekas ++ [(aptekaId, apteka)] } })

/-- Modelled from the spec: `database.UserInsert`, whose source is not at hand: a write inside the
transaction that on success adds the owner row, and on failure adds nothing. -/
def UserInsert (lp : World) (tx : TransactionOps) (user : User) (s : State) :
    Option Error × State :=
  let s1 := emit (Event.UserInsert tx user) s
  match lp.UserInsert s.trace tx user with
  | some err => (some err, s1)
  | none => (none, { s1 with store := { s1.store with users := s1.store.users ++ [user] } })

/-! ## `longpoll.go` -/

/-- The method `LongPoll.sendText`: one call of `bot.SendMessage`, whose error is returned. -/
def sendText (lp : World) (chatId : Int) (text : String) (s : State) : Option Error × State :=
  (lp.SendMessage s.trace chatId text, emit (Event.SendMessage chatId text) s)

/-- The `Error` callback of the dispatcher built in `LongPoll.Run`:
`log.Println("an error occurred while handling update:", err.Error())`, then
`ext.DispatcherActionNoop`. The text of the log line is recorded without the prefix and the line
end the logger adds. -/
def dispatcherError (err : Error) (s : State) : DispatcherAction × State :=
  (DispatcherAction.Noop,
    emit (Event.LogPrintln ("an error occurred while handling update: " ++ err)) s)

/-- The method `LongPoll.handleText`. -/
def handleText (lp : World) (ctx : Context) (s : State) : Option Error × State :=
  let chat := ctx.EffectiveMessage.Chat
  sendText lp chat.Id lp.TextDefault s

/-- The callback that `handleWebAppApteka` passes to `database.Transact`. -/
def handleWebAppAptekaCallback (lp : World) (chat : Chat) (apteka : Apteka)
    (tx : TransactionOps) (s : State) : (Bool × Option Error) × State :=
  let r1 := AptekaInsert lp tx apteka s
  match r1.1.2 with
  | some err => ((false, some err), r1.2)
  | none =>
    let r2 := UserInsert lp tx { ChatId := chat.Id, AptekaId := r1.1.1 } r1.2
    match r2.1 with
    | some err => ((false, some err), r2.2)
    | none => ((true, none), r2.2)

/-- The method `LongPoll.handleWebAppApteka`. -/
def handleWebAppApteka (lp : World) (chat : Chat) (apteka : Apteka) (s : State) :
    Option Error × State :=
  let r := Transact lp (handleWebAppAptekaCallback lp chat apteka) s
  match r.1.2 with
  | some err => (some err, r.2)
  | none => sendText lp chat.Id "Аптека успешно создана ✅" r.2

/-- The method `LongPoll.handleWebAppData`. The result of `bot.DeleteMessage` is dropped. The
text of the log line is recorded without the prefix and the line end the logger adds. -/
def handleWebAppData (lp : World) (ctx : Context) (s : State) : Option Error × State :=
  match ctx.EffectiveMessage.WebAppData with
  | none => (none, s)
  | some webAppData =>
    let chat := ctx.EffectiveMessage.Chat
    let s1 := emit (Event.DeleteMessage chat.Id ctx.EffectiveMessage.MessageId) s
    let json := webAppData.Data
    let s2 := emit
      (Event.LogPrintf ("[ChatId=" ++ toString chat.Id ++ "] Got json from WebApp: " ++ json)) s1
    match lp.ParseAndValidate json with
    | .ok apteka => handleWebAppApteka lp chat apteka s2
    | .error _ => sendText lp chat.Id "Что-то пошло не так - попробуйте еще раз" s2

/-- How a handler that dereferences `ctx.EffectiveMessage.Voice` ends: it returns an error value,
or the pointer is `nil` and the dereference stops it. -/
inductive Outcome where
  | returned (err : Option Error)
  | nilDereference
  deriving DecidableEq, Repr

/-- The method `LongPoll.handleVoice` as written in `longpoll.go`: the transcribed text is sent
back to the chat. The deferred `resp.Body.Close()` runs after the return value is computed. -/
def Longpoll.handleVoice (lp : World) (ctx : Context) (s : State) : Outcome × State :=
  let chat := ctx.EffectiveMessage.Chat
  match ctx.EffectiveMessage.Voice with
  | none => (Outcome.nilDereference, s)
  | some voice =>
    if voice.Duration > 20 then
      let r := sendText lp chat.Id lp.TextTooLongVoice s
      (Outcome.returned r.1, r.2)
    else
      let s1 := emit (Event.GetFile voice.FileId) s
      match lp.GetFile s.trace voice.FileId with
      | .error err => (Outcome.returned (some err), s1)
      | .ok file =>
        let url := lp.FileURL file
        let s2 := emit (Event.HttpGet url) s1
        match lp.HttpGet s1.trace url with
        | .error err => (Outcome.returned (some err), s2)
        | .ok resp =>
          let req : AudioRequest :=
            { Model := Whisper1, Reader := resp.Body, FilePath := file.FilePath,
              Prompt := "Парацетамол, ТайлолХот, Тримол", Language := "ru" }
          let s3 := emit (Event.CreateTranscription req) s2
          match lp.CreateTranscription s2.trace req with
          | .error err =>
            let s4 := emit (Event.Printf ("Transcription error: " ++ err ++ "\n")) s3
            (Outcome.returned (some err), emit (Event.BodyClose resp.Body) s4)
          | .ok text =>
            let r := sendText lp chat.Id text s3
            (Outcome.returned r.1, emit (Event.BodyClose resp.Body) r.2)

/-! ## `handle_voice.go` -/

/-- The method `LongPoll.transcribeVoice`. The deferred `resp.Body.Close()` runs when the
function returns. -/
def transcribeVoice (lp : World) (voice : Voice) (s : State) : (String × Option Error) × State :=
  let s1 := emit (Event.GetFile voice.FileId) s
  match lp.GetFile s.trace voice.FileId with
  | .error err => (("", some err), s1)
  | .ok file =>
    let url := lp.FileURL file
    let s2 := emit (Event.HttpGet url) s1
    match lp.HttpGet s1.trace url with
    | .error err => (("", some err), s2)
    | .ok resp =>
      let req : AudioRequest :=
        { Model := Whisper1, Reader := resp.Body, FilePath := file.FilePath,
          Prompt := "Парацетамол, ТайлолХот, Тримол", Language := "ru" }
      let s3 := emit (Event.CreateTranscription req) s2
      match lp.CreateTranscription s2.trace req with
      | .error err =>
        let s4 := emit (Event.Printf ("Transcription error: " ++ err ++ "\n")) s3
        (("", some err), emit (Event.BodyClose resp.Body) s4)
      | .ok text => ((text, none), emit (Event.BodyClose resp.Body) s3)

/-- The callback that `searchApteka` passes to `database.Transact`. -/
def searchAptekaCallback (lp : World) (medicineNames : List String) (tx : TransactionOps)
    (s : State) : (List Tuple2 × Option Error) × State :=
  let r := MedicineSearch lp tx medicineNames s
  match r.1.2 with
  | some err => (([], some err), r.2)
  | none => AptekaSearch lp tx r.1.1 r.2

/-- The method `LongPoll.searchApteka`. -/
def searchApteka (lp : World) (medicineNames : List String) (s : State) :
    (List Tuple2 × Option Error) × State :=
  Transact lp (searchAptekaCallback lp medicineNames) s

/-- The function `toMessage`. -/
def toMessage (t : Tuple2) : String × SendMessageOpts :=
  let a := t.1
  let ms := t.2
  let baseInfo := "Аптека: " ++ a.Name ++ "\nАдрес: " ++ a.Address ++ "\nPhone: " ++ a.Phone
  let presenceInfo := "В наличии: " ++ Join ms ", "
  (baseInfo ++ "\n\n" ++ presenceInfo, { })

/-- The loop `for _, tuple := range tuples` of `handleVoice`: the result of `sendText` is
dropped, and every send is followed by `time.Sleep(2 * time.Second)`. -/
def sendTuples (lp : World) (chatId : Int) : List Tuple2 → State → State
  | [], s => s
  | tuple :: rest, s =>
    let text := (toMessage tuple).1
    let r := sendText lp chatId text s
    let s1 := emit (Event.Sleep (2 * Second)) r.2
    sendTuples lp chatId rest s1

/-- The method `LongPoll.handleVoice` as written in `handle_voice.go`. The `text` of the last
send is the transcribed text: the `text` declared in the loop body is local to it. -/
def handleVoice (lp : World) (ctx : Context) (s : State) : Outcome × State :=
  let chat := ctx.EffectiveMessage.Chat
  match ctx.EffectiveMessage.Voice with
  | none => (Outcome.nilDereference, s)
  | some voice =>
    if voice.Duration > 20 then
      let r := sendText lp chat.Id lp.TextTooLongVoice s
      (Outcome.returned r.1, r.2)
    else
      let r1 := transcribeVoice lp voice s
      match r1.1.2 with
      | some err => (Outcome.returned (some err), r1.2)
      | none =>
        let text := r1.1.1
        let r2 := searchApteka lp (medicineNames text) r1.2
        match r2.1.2 with
        | some err => (Outcome.returned (some err), r2.2)
        | none =>
          let tuples := r2.1.1
          let s3 := sendTuples lp chat.Id tuples r2.2
          if tuples.length = 0 then
            let r := sendText lp chat.Id ("Не нашел данные лекарства ни в одной из аптек: " ++ text) s3
            (Outcome.returned r.1, r.2)
          else
            (Outcome.returned none, s3)

/-! ## Reading a trace -/

/-- The messages sent to chats in a trace, oldest first: destination and text. -/
def sends (trace : List Event) : List (Int × String) :=
  trace.filterMap fun e =>
    match e with
    | Event.SendMessage chatId text => some (chatId, text)
    | _ => none

/-- The pauses in a trace, oldest first, in nanoseconds. -/
def sleeps (trace : List Event) : List Nat :=
  trace.filterMap fun e =>
    match e with
    | Event.Sleep d => some d
    | _ => none

/-- The events of the database package: opening and closing a transaction, reads and writes. -/
def isDatabaseEvent : Event → Bool
  | Event.Begin => true
  | Event.Commit _ => true
  | Event.Rollback _ => true
  | Event.MedicineSearch _ _ => true
  | Event.AptekaSearch _ _ => true
  | Event.AptekaInsert _ _ => true
  | Event.UserInsert _ _ => true
  | _ => false

/-- The events that follow `GetFile` in a transcription: the download, the transcription call,
the line printed on failure and the closing of the response body. -/
def isTranscriptionEvent : Event → Bool
  | Event.HttpGet _ => true
  | Event.CreateTranscription _ => true
  | Event.Printf _ => true
  | Event.BodyClose _ => true
  | _ => false

/-! ## Concrete worlds and inputs -/

/-- Two pharmacy groups, the first stocking two of the medicines asked for. -/
def demoTuples : List Tuple2 :=
  [({ Name := "Аптека А", Address := "ул. Ленина 1", Phone := "+996 555 000 001" },
      ["Парацетамол", "ТайлолХот"]),
   ({ Name := "Аптека Б", Address := "ул. Мира 2", Phone := "+996 555 000 002" },
      ["Парацетамол"])]

/-- A world in which the download and the transcription succeed with the given text, the search
returns the given groups, every send ends with `sendErr` and the owner insert with `userErr`. -/
def demoWorld (text : String) (tuples : List Tuple2) (sendErr userErr : Option Error) : World :=
  { TextTooLongVoice := "Голосовое сообщение слишком длинное"
    TextDefault := "Отправьте голосовое сообщение"
    GetFile := fun _ fileId => .ok { FileId := fileId, FilePath := "voice/file_1.oga" }
    FileURL := fun f => "https://api.telegram.org/file/bot/" ++ f.FilePath
    HttpGet := fun _ _ => .ok { Body := 1 }
    CreateTranscription := fun _ _ => .ok text
    SendMessage := fun _ _ _ => sendErr
    ParseAndValidate := fun json =>
      if json = "apteka" then .ok { Name := "Аптека А", Address := "ул. Ленина 1", Phone := "1" }
      else .error "validation failed"
    Begin := fun _ => .ok 1
    Commit := fun _ _ => none
    MedicineSearch := fun _ _ names => ((List.range names.length).map Int.ofNat, none)
    AptekaSearch := fun _ _ _ => (tuples, none)
    AptekaInsert := fun _ _ _ => .ok 42
    UserInsert := fun _ _ _ => userErr }

/-- A pharmacy payload that passed validation. -/
def demoApteka : Apteka :=
  { Name := "Аптека А", Address := "ул. Ленина 1", Phone := "+996 555 000 001" }

/-- A world in which the medicine lookup fails. -/
def searchFailsWorld : World :=
  { demoWorld "Парацетамол, Тримол" demoTuples none none with
    MedicineSearch := fun _ _ _ => ([], some "driver: bad connection") }

/-- A world in which no transaction can be opened. -/
def beginFailsWorld : World :=
  { demoWorld "Парацетамол, Тримол" demoTuples none none with
    Begin := fun _ => .error "dial tcp: connection refused" }

/-- A world in which the transcription client fails. -/
def transcriptionFailsWorld : World :=
  { demoWorld "" demoTuples none none with
    CreateTranscription := fun _ _ => .error "error, status code: 500" }

/-- A voice message of the given duration in chat 7. -/
def voiceCtx (duration : Int) : Context :=
  { EffectiveMessage :=
      { MessageId := 100, Chat := { Id := 7 },
        Voice := some { FileId := "voice-1", Duration := duration }, WebAppData := none } }

/-- A message in chat 7 carrying the given web-app payload. -/
def webAppCtx (data : Option String) : Context :=
  { EffectiveMessage :=
      { MessageId := 101, Chat := { Id := 7 }, Voice := none,
        WebAppData := data.map fun d => { Data := d } } }

/-- The state before anything happened, with an empty database. -/
def emptyState : State :=
  { trace := [], store := { aptekas := [], users := [] } }

/-! ### Lemmas on trimming and splitting -/

theorem dropWhile_append_singleton_of_neg {α : Type} (p : α → Bool) (a : α) (h : p a = false)
    (r : List α) : List.dropWhile p (r ++ [a]) = List.dropWhile p r ++ [a] := by
  induction r with
  | nil => simp [List.dropWhile, h]
  | cons b r ih =>
    by_cases hb : p b = true
    · simp [List.dropWhile, hb, ih]
    · simp [List.dropWhile, hb]

theorem rdropWhile_cons_of_neg {α : Type} (p : α → Bool) (a : α) (h : p a = false)
    (l : List α) : List.rdropWhile p (a :: l) = a :: List.rdropWhile p l := by
  unfold List.rdropWhile
  rw [List.reverse_cons, dropWhile_append_singleton_of_neg p a h]
  simp

theorem trimSpaceChars_twice (l : List Char) :
    trimSpaceChars (trimSpaceChars l) = trimSpaceChars l := by
  unfold trimSpaceChars
  cases hm : List.dropWhile isSpace l with
  | nil => simp
  | cons a m =>
    have ha : isSpace a = false := by
      have := List.head_dropWhile_not isSpace l (by simp [hm])
      simpa [hm] using this
    rw [rdropWhile_cons_of_neg isSpace a ha, List.dropWhile_cons_of_neg (by simp [ha]),
      ← rdropWhile_cons_of_neg isSpace a ha, List.rdropWhile_idempotent]

theorem trimSpaceChars_eq_nil_iff (l : List Char) :
    trimSpaceChars l = [] ↔ ∀ c ∈ l, isSpace c = true := by
  unfold trimSpaceChars
  constructor
  · intro h
    cases hm : List.dropWhile isSpace l with
    | nil => simpa using hm
    | cons a m =>
      have ha : isSpace a = false := by
        have := List.head_dropWhile_not isSpace l (by simp [hm])
        simpa [hm] using this
      rw [hm, rdropWhile_cons_of_neg isSpace a ha] at h
      simp at h
  · intro h
    have : List.dropWhile isSpace l = [] := by simpa using h
    simp [this]

theorem TrimSpace_twice (s : String) : TrimSpace (TrimSpace s) = TrimSpace s := by
  simp [TrimSpace, trimSpaceChars_twice]

theorem TrimSpace_eq_empty_iff (s : String) :
    TrimSpace s = "" ↔ ∀ c ∈ s.data, isSpace c = true := by
  rw [← trimSpaceChars_eq_nil_iff]
  unfold TrimSpace
  constructor
  · intro h
    have := congrArg String.data h
    simpa using this
  · intro h
    rw [h]

theorem splitChars_ne_nil (sep : Char) (l : List Char) : splitChars sep l ≠ [] := by
  induction l with
  | nil => simp [splitChars]
  | cons c cs ih =>
    unfold splitChars
    split
    · simp
    · split <;> simp

theorem splitChars_length (sep : Char) (l : List Char) :
    (splitChars sep l).length = l.count sep + 1 := by
  induction l with
  | nil => simp [splitChars]
  | cons c cs ih =>
    unfold splitChars
    by_cases h : c = sep
    · subst h
      simp [ih]
    · rw [if_neg h]
      have hne : (c == sep) = false := by simpa using h
      cases hs : splitChars sep cs with
      | nil => exact absurd hs (splitChars_ne_nil sep cs)
      | cons p ps =>
        rw [hs] at ih
        simp [List.count_cons, hne] at ih ⊢
        omega

/-! ### Lemmas on the effects of the handlers -/

theorem sends_append (a b : List Event) : sends (a ++ b) = sends a ++ sends b := by
  simp [sends, List.filterMap_append]

theorem sleeps_append (a b : List Event) : sleeps (a ++ b) = sleeps a ++ sleeps b := by
  simp [sleeps, List.filterMap_append]

theorem sendTuples_eq (lp : World) (chatId : Int) (tuples : List Tuple2) (s : State) :
    sendTuples lp chatId tuples s =
      { trace := s.trace ++ tuples.flatMap fun t =>
          [Event.SendMessage chatId (toMessage t).1, Event.Sleep (2 * Second)],
        store := s.store } := by
  induction tuples generalizing s with
  | nil => simp [sendTuples]
  | cons t ts ih => simp [sendTuples, ih, sendText, emit]

theorem transcribeVoice_state (lp : World) (voice : Voice) (s : State) :
    ∃ rest, (transcribeVoice lp voice s).2 =
        { trace := s.trace ++ Event.GetFile voice.FileId :: rest, store := s.store } ∧
      ∀ e ∈ rest, isTranscriptionEvent e = true := by
  unfold transcribeVoice
  simp only [emit]
  split
  · exact ⟨[], by simp⟩
  · next file _ =>
    split
    · exact ⟨[Event.HttpGet (lp.FileURL file)], by simp [isTranscriptionEvent]⟩
    · next resp _ =>
      split
      · next err _ =>
        exact ⟨[Event.HttpGet (lp.FileURL file),
          Event.CreateTranscription
            { Model := Whisper1, Reader := resp.Body, FilePath := file.FilePath,
              Prompt := "Парацетамол, ТайлолХот, Тримол", Language := "ru" },
          Event.Printf ("Transcription error: " ++ err ++ "\n"), Event.BodyClose resp.Body],
          by simp [isTranscriptionEvent]⟩
      · exact ⟨[Event.HttpGet (lp.FileURL file),
          Event.CreateTranscription
            { Model := Whisper1, Reader := resp.Body, FilePath := file.FilePath,
              Prompt := "Парацетамол, ТайлолХот, Тримол", Language := "ru" },
          Event.BodyClose resp.Body],
          by simp [isTranscriptionEvent]⟩

theorem Transact_state {α : Type} [Inhabited α] (lp : World)
    (f : TransactionOps → State → (α × Option Error) × State) (s : State)
    (hf : ∀ tx s1, ∃ evs, (f tx s1).2.trace = s1.trace ++ evs ∧
      ∀ e ∈ evs, isDatabaseEvent e = true ∧ e ≠ Event.Begin) :
    ∃ evs, (Transact lp f s).2.trace = s.trace ++ Event.Begin :: evs ∧
      ∀ e ∈ evs, isDatabaseEvent e = true ∧ e ≠ Event.Begin := by
  unfold Transact
  cases lp.Begin s.trace with
  | error err => exact ⟨[], by simp [emit]⟩
  | ok tx =>
    obtain ⟨evs, h1, h2⟩ := hf tx (emit Event.Begin s)
    simp only [emit] at h1
    have h3 : ∀ c : Event, isDatabaseEvent c = true → c ≠ Event.Begin →
        ∀ e ∈ evs ++ [c], isDatabaseEvent e = true ∧ e ≠ Event.Begin := by
      intro c hc1 hc2 e he
      rcases List.mem_append.mp he with h | h
      · exact h2 e h
      · simp only [List.mem_singleton] at h
        subst h
        exact ⟨hc1, hc2⟩
    simp only []
    split
    · exact ⟨evs ++ [Event.Rollback tx], by simp [h1, emit, List.append_assoc],
        h3 _ (by simp [isDatabaseEvent]) (by simp)⟩
    · split
      · exact ⟨evs ++ [Event.Commit tx], by simp [h1, emit, List.append_assoc],
          h3 _ (by simp [isDatabaseEvent]) (by simp)⟩
      · exact ⟨evs ++ [Event.Commit tx], by simp [h1, emit, List.append_assoc],
          h3 _ (by simp [isDatabaseEvent]) (by simp)⟩

theorem searchAptekaCallback_state (lp : World) (names : List String) (tx : TransactionOps)
    (s : State) :
    (searchAptekaCallback lp names tx s).2.store = s.store ∧
    ∃ evs, (searchAptekaCallback lp names tx s).2.trace = s.trace ++ evs ∧
      ∀ e ∈ evs, isDatabaseEvent e = true ∧ e ≠ Event.Begin := by
  unfold searchAptekaCallback
  simp only []
  split
  · exact ⟨rfl, [Event.MedicineSearch tx names], by simp [MedicineSearch, emit, isDatabaseEvent]⟩
  · exact ⟨rfl, [Event.MedicineSearch tx names,
      Event.AptekaSearch tx (lp.MedicineSearch s.trace tx names).1],
      by simp [MedicineSearch, AptekaSearch, emit, isDatabaseEvent]⟩

theorem searchApteka_store (lp : World) (names : List String) (s : State) :
    (searchApteka lp names s).2.store = s.store := by
  unfold searchApteka Transact
  cases lp.Begin s.trace with
  | error err => simp [emit]
  | ok tx =>
    simp only []
    split
    · rfl
    · split
      · rfl
      · simp [(searchAptekaCallback_state lp names tx _).1, emit]

theorem searchApteka_state (lp : World) (names : List String) (s : State) :
    ∃ evs, (searchApteka lp names s).2 =
        { trace := s.trace ++ Event.Begin :: evs, store := s.store } ∧
      ∀ e ∈ evs, isDatabaseEvent e = true ∧ e ≠ Event.Begin := by
  obtain ⟨evs, h1, h2⟩ := Transact_state lp (searchAptekaCallback lp names) s
    (fun tx s1 => (searchAptekaCallback_state lp names tx s1).2)
  refine ⟨evs, ?_, h2⟩
  have h3 := searchApteka_store lp names s
  unfold searchApteka at h3 ⊢
  cases h : Transact lp (searchAptekaCallback lp names) s with
  | mk r st =>
    rw [h] at h1 h3
    cases st
    simp at h1 h3 ⊢
    exact ⟨h1, h3⟩

theorem sends_eq_nil_of_quiet (l : List Event)
    (h : ∀ e ∈ l, isTranscriptionEvent e = true ∨ isDatabaseEvent e = true) :
    sends l = [] ∧ sleeps l = [] := by
  induction l with
  | nil => exact ⟨rfl, rfl⟩
  | cons e l ih =>
    have ih' := ih (fun x hx => h x (List.mem_cons_of_mem _ hx))
    have he := h e (List.mem_cons_self _ _)
    cases e <;> first
      | exact ih'
      | simp [isTranscriptionEvent, isDatabaseEvent] at he

theorem transcribeVoice_quiet (lp : World) (voice : Voice) (s : State) :
    sends (transcribeVoice lp voice s).2.trace = sends s.trace ∧
    sleeps (transcribeVoice lp voice s).2.trace = sleeps s.trace := by
  obtain ⟨rest, h1, h2⟩ := transcribeVoice_state lp voice s
  have h3 := sends_eq_nil_of_quiet rest (fun e he => Or.inl (h2 e he))
  rw [h1]
  simp only [sends_append, sleeps_append]
  have h4 : sends (Event.GetFile voice.FileId :: rest) = sends rest := by simp [sends]
  have h5 : sleeps (Event.GetFile voice.FileId :: rest) = sleeps rest := by simp [sleeps]
  rw [h4, h5, h3.1, h3.2]
  simp

theorem searchApteka_quiet (lp : World) (names : List String) (s : State) :
    sends (searchApteka lp names s).2.trace = sends s.trace ∧
    sleeps (searchApteka lp names s).2.trace = sleeps s.trace := by
  obtain ⟨evs, h1, h2⟩ := searchApteka_state lp names s
  have h3 := sends_eq_nil_of_quiet evs (fun e he => Or.inr (h2 e he).1)
  rw [h1]
  simp only [sends_append, sleeps_append]
  have h4 : sends (Event.Begin :: evs) = sends evs := by simp [sends]
  have h5 : sleeps (Event.Begin :: evs) = sleeps evs := by simp [sleeps]
  rw [h4, h5, h3.1, h3.2]
  simp

theorem searchApteka_committed (lp : World) (names : List String) (s s2 : State)
    (tuples : List Tuple2) (hs : searchApteka lp names s = ((tuples, none), s2)) :
    ∃ tx, lp.Begin s.trace = .ok tx ∧ s2.trace.getLast? = some (Event.Commit tx) := by
  unfold searchApteka Transact at hs
  split at hs
  · simp at hs
  · next tx hb =>
    refine ⟨tx, hb, ?_⟩
    simp only [] at hs
    split at hs
    · simp at hs
    · split at hs
      · simp at hs
      · simp only [Prod.mk.injEq] at hs
        rw [← hs.2]
        simp

theorem transcribeVoice_text (lp : World) (voice : Voice) (s s1 : State) (text : String)
    (ht : transcribeVoice lp voice s = ((text, none), s1)) :
    ∃ trace req, lp.CreateTranscription trace req = .ok text := by
  unfold transcribeVoice at ht
  simp only [emit] at ht
  split at ht
  · simp at ht
  · split at ht
    · simp at ht
    · split at ht
      · simp at ht
      · next text' h =>
        simp only [Prod.mk.injEq] at ht
        exact ⟨_, _, ht.1.1 ▸ h⟩

theorem handleVoice_searched (lp : World) (ctx : Context) (voice : Voice) (s s1 s2 : State)
    (text : String) (tuples : List Tuple2)
    (hv : ctx.EffectiveMessage.Voice = some voice) (hd : voice.Duration ≤ 20)
    (ht : transcribeVoice lp voice s = ((text, none), s1))
    (hs : searchApteka lp (medicineNames text) s1 = ((tuples, none), s2)) :
    handleVoice lp ctx s =
      if tuples.length = 0 then
        (Outcome.returned (lp.SendMessage s2.trace ctx.EffectiveMessage.Chat.Id
            ("Не нашел данные лекарства ни в одной из аптек: " ++ text)),
          { trace := s2.trace ++ [Event.SendMessage ctx.EffectiveMessage.Chat.Id
              ("Не нашел данные лекарства ни в одной из аптек: " ++ text)],
            store := s2.store })
      else
        (Outcome.returned none,
          { trace := s2.trace ++ tuples.flatMap fun t =>
              [Event.SendMessage ctx.EffectiveMessage.Chat.Id (toMessage t).1,
                Event.Sleep (2 * Second)],
            store := s2.store }) := by
  unfold handleVoice
  simp only [hv]
  rw [if_neg (by omega)]
  simp only [ht, hs, sendTuples_eq, sendText, emit]
  by_cases hlen : tuples.length = 0
  · have hnil := List.length_eq_zero.mp hlen
    subst hnil
    simp
  · simp [hlen]

theorem registration_cases (lp : World) (chat : Chat) (apteka : Apteka) (s : State) :
    Transact lp (handleWebAppAptekaCallback lp chat apteka) s =
      match lp.Begin s.trace with
      | .error err => ((false, some err), { trace := s.trace ++ [Event.Begin], store := s.store })
      | .ok tx =>
        match lp.AptekaInsert (s.trace ++ [Event.Begin]) tx apteka with
        | .error err =>
          ((false, some err),
            { trace := s.trace ++ [Event.Begin, Event.AptekaInsert tx apteka, Event.Rollback tx],
              store := s.store })
        | .ok aptekaId =>
          match lp.UserInsert (s.trace ++ [Event.Begin, Event.AptekaInsert tx apteka]) tx
              { ChatId := chat.Id, AptekaId := aptekaId } with
          | some err =>
            ((false, some err),
              { trace := s.trace ++ [Event.Begin, Event.AptekaInsert tx apteka,
                  Event.UserInsert tx { ChatId := chat.Id, AptekaId := aptekaId },
                  Event.Rollback tx],
                store := s.store })
          | none =>
            match lp.Commit (s.trace ++ [Event.Begin, Event.AptekaInsert tx apteka,
                Event.UserInsert tx { ChatId := chat.Id, AptekaId := aptekaId }]) tx with
            | some err =>
              ((true, some err),
                { trace := s.trace ++ [Event.Begin, Event.AptekaInsert tx apteka,
                    Event.UserInsert tx { ChatId := chat.Id, AptekaId := aptekaId },
                    Event.Commit tx],
                  store := s.store })
            | none =>
              ((true, none),
                { trace := s.trace ++ [Event.Begin, Event.AptekaInsert tx apteka,
                    Event.UserInsert tx { ChatId := chat.Id, AptekaId := aptekaId },
                    Event.Commit tx],
                  store :=
                    { aptekas := s.store.aptekas ++ [(aptekaId, apteka)],
                      users := s.store.users ++ [{ ChatId := chat.Id, AptekaId := aptekaId }] } }) := by
  unfold Transact
  cases hb : lp.Begin s.trace with
  | error err => rfl
  | ok tx =>
    simp only [emit, handleWebAppAptekaCallback, AptekaInsert]
    cases ha : lp.AptekaInsert (s.trace ++ [Event.Begin]) tx apteka with
    | error err => simp
    | ok aptekaId =>
      simp only [UserInsert, emit, List.append_assoc, List.singleton_append]
      cases hu : lp.UserInsert (s.trace ++ [Event.Begin, Event.AptekaInsert tx apteka]) tx
          { ChatId := chat.Id, AptekaId := aptekaId } with
      | some err => simp
      | none =>
        simp only [List.append_assoc, List.singleton_append, List.cons_append, List.nil_append]

theorem searchApteka_calls_MedicineSearch (lp : World) (names : List String) (s : State)
    (tx : TransactionOps) (hb : lp.Begin s.trace = .ok tx) :
    Event.MedicineSearch tx names ∈ (searchApteka lp names s).2.trace := by
  unfold searchApteka Transact
  simp only [hb, emit, searchAptekaCallback, MedicineSearch, AptekaSearch]
  cases hm : (lp.MedicineSearch (s.trace ++ [Event.Begin]) tx names).2 with
  | some err => simp
  | none =>
    simp only []
    split
    · simp
    · split <;> simp

theorem handleVoice_trace_extends_search (lp : World) (ctx : Context) (voice : Voice)
    (s s1 : State) (text : String)
    (hv : ctx.EffectiveMessage.Voice = some voice) (hd : voice.Duration ≤ 20)
    (ht : transcribeVoice lp voice s = ((text, none), s1)) :
    ∃ tail, (handleVoice lp ctx s).2.trace =
      (searchApteka lp (medicineNames text) s1).2.trace ++ tail := by
  unfold handleVoice
  simp only [hv]
  rw [if_neg (by omega)]
  simp only [ht, sendTuples_eq, sendText, emit]
  split
  · exact ⟨[], by simp⟩
  · split
    · exact ⟨_, List.append_assoc _ _ _⟩
    · exact ⟨_, rfl⟩

theorem transcribeVoice_attempt (lp : World) (voice : Voice) (s : State) :
    ∃ rest, (transcribeVoice lp voice s).2.trace =
        s.trace ++ Event.GetFile voice.FileId :: rest ∧
      (∀ e ∈ rest, isTranscriptionEvent e = true) ∧
      ∀ file, lp.GetFile s.trace voice.FileId = .ok file →
        ∃ rest1, rest = Event.HttpGet (lp.FileURL file) :: rest1 ∧
          ∀ resp, lp.HttpGet (s.trace ++ [Event.GetFile voice.FileId]) (lp.FileURL file) =
              .ok resp →
            ∃ rest2, rest1 =
              Event.CreateTranscription
                { Model := Whisper1, Reader := resp.Body, FilePath := file.FilePath,
                  Prompt := "Парацетамол, ТайлолХот, Тримол", Language := "ru" } :: rest2 := by
  unfold transcribeVoice
  simp only [emit]
  split
  · next hfile =>
    refine ⟨[], by simp, by simp, ?_⟩
    intro file hf
    rw [hfile] at hf
    cases hf
  · next file hfile =>
    split
    · next hget =>
      refine ⟨[Event.HttpGet (lp.FileURL file)], by simp, by simp [isTranscriptionEvent], ?_⟩
      intro file' hf
      rw [hfile] at hf
      cases hf
      refine ⟨[], rfl, ?_⟩
      intro resp hr
      rw [hget] at hr
      cases hr
    · next resp hget =>
      split
      · next err _ =>
        refine ⟨[Event.HttpGet (lp.FileURL file),
          Event.CreateTranscription
            { Model := Whisper1, Reader := resp.Body, FilePath := file.FilePath,
              Prompt := "Парацетамол, ТайлолХот, Тримол", Language := "ru" },
          Event.Printf ("Transcription error: " ++ err ++ "\n"), Event.BodyClose resp.Body],
          by simp, by simp [isTranscriptionEvent], ?_⟩
        intro file' hf
        rw [hfile] at hf
        cases hf
        refine ⟨_, rfl, ?_⟩
        intro resp' hr
        rw [hget] at hr
        cases hr
        exact ⟨_, rfl⟩
      · refine ⟨[Event.HttpGet (lp.FileURL file),
          Event.CreateTranscription
            { Model := Whisper1, Reader := resp.Body, FilePath := file.FilePath,
              Prompt := "Парацетамол, ТайлолХот, Тримол", Language := "ru" },
          Event.BodyClose resp.Body],
          by simp, by simp [isTranscriptionEvent], ?_⟩
        intro file' hf
        rw [hfile] at hf
        cases hf
        refine ⟨_, rfl, ?_⟩
        intro resp' hr
        rw [hget] at hr
        cases hr
        exact ⟨_, rfl⟩

theorem handleVoice_accepted_trace (lp : World) (ctx : Context) (voice : Voice) (s : State)
    (hv : ctx.EffectiveMessage.Voice = some voice) (hd : voice.Duration ≤ 20) :
    ∃ tail, (handleVoice lp ctx s).2.trace = (transcribeVoice lp voice s).2.trace ++ tail ∧
      ∀ c t, Event.SendMessage c t ∈ tail →
        c = ctx.EffectiveMessage.Chat.Id ∧
        ∃ text trace req, lp.CreateTranscription trace req = .ok text ∧
          ((∃ tuple, t = (toMessage tuple).1) ∨
            t = "Не нашел данные лекарства ни в одной из аптек: " ++ text) := by
  unfold handleVoice
  simp only [hv]
  rw [if_neg (by omega)]
  split
  · refine ⟨[], by simp, ?_⟩
    intro c t h
    cases h
  · next hnone =>
    have hct := transcribeVoice_text lp voice s (transcribeVoice lp voice s).2
      (transcribeVoice lp voice s).1.1 (Prod.ext (Prod.ext rfl hnone) rfl)
    obtain ⟨tr, req, hct⟩ := hct
    obtain ⟨evs, h2, h2'⟩ := searchApteka_state lp
      (medicineNames (transcribeVoice lp voice s).1.1) (transcribeVoice lp voice s).2
    have hno2 : ∀ c t, Event.SendMessage c t ∉ Event.Begin :: evs := by
      intro c t h
      rcases List.mem_cons.mp h with h | h
      · cases h
      · have := (h2' _ h).1
        simp [isDatabaseEvent] at this
    split
    · refine ⟨Event.Begin :: evs, by simp only [h2], ?_⟩
      intro c t h
      exact absurd h (hno2 c t)
    · split
      · next hlen =>
        have hnil := List.length_eq_zero.mp hlen
        refine ⟨Event.Begin :: evs ++
          [Event.SendMessage ctx.EffectiveMessage.Chat.Id
            ("Не нашел данные лекарства ни в одной из аптек: " ++
              (transcribeVoice lp voice s).1.1)], ?_, ?_⟩
        · simp only [sendText, emit, sendTuples_eq, h2, hnil]
          simp
        · intro c t h
          rcases List.mem_append.mp h with h | h
          · exact absurd h (hno2 c t)
          · simp only [List.mem_singleton, Event.SendMessage.injEq] at h
            exact ⟨h.1, _, tr, req, hct, Or.inr h.2⟩
      · refine ⟨Event.Begin :: evs ++
          (searchApteka lp (medicineNames (transcribeVoice lp voice s).1.1)
            (transcribeVoice lp voice s).2).1.1.flatMap (fun tuple =>
              [Event.SendMessage ctx.EffectiveMessage.Chat.Id (toMessage tuple).1,
                Event.Sleep (2 * Second)]), ?_, ?_⟩
        · simp only [sendTuples_eq, h2]
          simp
        · intro c t h
          rcases List.mem_append.mp h with h | h
          · exact absurd h (hno2 c t)
          · simp only [List.mem_flatMap, List.mem_cons, Event.SendMessage.injEq,
              List.mem_singleton, List.not_mem_nil, or_false] at h
            obtain ⟨tuple, _, h⟩ := h
            rcases h with h | h
            · exact ⟨h.1, _, tr, req, hct, Or.inl ⟨tuple, h.2⟩⟩
            · cases h

theorem longpoll_handleVoice_accepted_trace (lp : World) (ctx : Context) (voice : Voice)
    (s : State) (hv : ctx.EffectiveMessage.Voice = some voice) (hd : voice.Duration ≤ 20) :
    ∃ rest, (Longpoll.handleVoice lp ctx s).2.trace =
        s.trace ++ Event.GetFile voice.FileId :: rest ∧
      (∀ file, lp.GetFile s.trace voice.FileId = .ok file →
        ∃ rest1, rest = Event.HttpGet (lp.FileURL file) :: rest1 ∧
          ∀ resp, lp.HttpGet (s.trace ++ [Event.GetFile voice.FileId]) (lp.FileURL file) =
              .ok resp →
            ∃ rest2, rest1 =
              Event.CreateTranscription
                { Model := Whisper1, Reader := resp.Body, FilePath := file.FilePath,
                  Prompt := "Парацетамол, ТайлолХот, Тримол", Language := "ru" } :: rest2) ∧
      ∀ c t, Event.SendMessage c t ∈ rest →
        c = ctx.EffectiveMessage.Chat.Id ∧
        ∃ trace req, lp.CreateTranscription trace req = .ok t := by
  unfold Longpoll.handleVoice
  simp only [hv]
  rw [if_neg (by omega)]
  simp only [emit, sendText]
  split
  · next hfile =>
    refine ⟨[], by simp, ?_, by simp⟩
    intro file hf
    rw [hfile] at hf
    cases hf
  · next file hfile =>
    split
    · next hget =>
      refine ⟨[Event.HttpGet (lp.FileURL file)], by simp, ?_, by simp⟩
      intro file' hf
      rw [hfile] at hf
      cases hf
      refine ⟨[], rfl, ?_⟩
      intro resp hr
      rw [hget] at hr
      cases hr
    · next resp hget =>
      split
      · next err _ =>
        refine ⟨[Event.HttpGet (lp.FileURL file),
          Event.CreateTranscription
            { Model := Whisper1, Reader := resp.Body, FilePath := file.FilePath,
              Prompt := "Парацетамол, ТайлолХот, Тримол", Language := "ru" },
          Event.Printf ("Transcription error: " ++ err ++ "\n"), Event.BodyClose resp.Body],
          by simp, ?_, by simp⟩
        intro file' hf
        rw [hfile] at hf
        cases hf
        refine ⟨_, rfl, ?_⟩
        intro resp' hr
        rw [hget] at hr
        cases hr
        exact ⟨_, rfl⟩
      · next text htext =>
        refine ⟨[Event.HttpGet (lp.FileURL file),
          Event.CreateTranscription
            { Model := Whisper1, Reader := resp.Body, FilePath := file.FilePath,
              Prompt := "Парацетамол, ТайлолХот, Тримол", Language := "ru" },
          Event.SendMessage ctx.EffectiveMessage.Chat.Id text, Event.BodyClose resp.Body],
          by simp, ?_, ?_⟩
        · intro file' hf
          rw [hfile] at hf
          cases hf
          refine ⟨_, rfl, ?_⟩
          intro resp' hr
          rw [hget] at hr
          cases hr
          exact ⟨_, rfl⟩
        · intro c t h
          simp at h
          exact ⟨h.1, _, _, h.2 ▸ htext⟩

/-! ## The claims -/

/-- Counterexample to C1 as stated: in `longpoll.go` the handler sends the transcribed text back,
so a voice message of 5 seconds whose transcription is the text of `TextTooLongVoice` is
answered with exactly the rejection text. -/
theorem longpoll_handleVoice_echoes_rejection_text :
    (5 : Int) ≤ 20 ∧
    (demoWorld "Голосовое сообщение слишком длинное" [] none none).TextTooLongVoice =
      "Голосовое сообщение слишком длинное" ∧
    (Longpoll.handleVoice (demoWorld "Голосовое сообщение слишком длинное" [] none none)
        (voiceCtx 5) emptyState).2.trace =
      [Event.GetFile "voice-1",
        Event.HttpGet "https://api.telegram.org/file/bot/voice/file_1.oga",
        Event.CreateTranscription
          { Model := "whisper-1", Reader := 1, FilePath := "voice/file_1.oga",
            Prompt := "Парацетамол, ТайлолХот, Тримол", Language := "ru" },
        Event.SendMessage 7 "Голосовое сообщение слишком длинное",
        Event.BodyClose 1] :=
  ⟨by decide, rfl, rfl⟩

/-- C1, amended. A voice message longer than 20 seconds is rejected before any processing: the
handler (in `handle_voice.go` and in `longpoll.go` alike) performs exactly one action, sending
`TextTooLongVoice` to the originating chat, and returns the result of that send; nothing is
downloaded, transcribed or searched. For a duration of at most 20 the rejection is not performed
and the transcription is attempted: the first action is `GetFile`, followed, when it succeeds, by
the download and, when that succeeds, by `CreateTranscription` on the downloaded body. A message
is sent only to the originating chat and only after a transcription has succeeded: by
`handle_voice.go` a result message or the not-found message for the transcribed text, by
`longpoll.go` the transcribed text. So the text of `TextTooLongVoice` is sent only if it is one
of these: never by `handle_voice.go` when it is neither a result nor a not-found text, never by
`longpoll.go` when no transcription returns it. -/
theorem handleVoice_duration_gate (lp : World) (ctx : Context) (voice : Voice) (s : State)
    (hv : ctx.EffectiveMessage.Voice = some voice) :
    (voice.Duration > 20 →
      handleVoice lp ctx s =
        (Outcome.returned (lp.SendMessage s.trace ctx.EffectiveMessage.Chat.Id lp.TextTooLongVoice),
          { trace := s.trace ++
              [Event.SendMessage ctx.EffectiveMessage.Chat.Id lp.TextTooLongVoice],
            store := s.store }) ∧
      Longpoll.handleVoice lp ctx s =
        (Outcome.returned (lp.SendMessage s.trace ctx.EffectiveMessage.Chat.Id lp.TextTooLongVoice),
          { trace := s.trace ++
              [Event.SendMessage ctx.EffectiveMessage.Chat.Id lp.TextTooLongVoice],
            store := s.store })) ∧
    (voice.Duration ≤ 20 →
      (∃ rest, (handleVoice lp ctx s).2.trace = s.trace ++ Event.GetFile voice.FileId :: rest ∧
        (∀ file, lp.GetFile s.trace voice.FileId = .ok file →
          ∃ rest1, rest = Event.HttpGet (lp.FileURL file) :: rest1 ∧
            ∀ resp, lp.HttpGet (s.trace ++ [Event.GetFile voice.FileId]) (lp.FileURL file) =
                .ok resp →
              ∃ rest2, rest1 =
                Event.CreateTranscription
                  { Model := Whisper1, Reader := resp.Body, FilePath := file.FilePath,
                    Prompt := "Парацетамол, ТайлолХот, Тримол", Language := "ru" } :: rest2) ∧
        (∀ c t, Event.SendMessage c t ∈ rest →
          c = ctx.EffectiveMessage.Chat.Id ∧
          ∃ text trace req, lp.CreateTranscription trace req = .ok text ∧
            ((∃ tuple, t = (toMessage tuple).1) ∨
              t = "Не нашел данные лекарства ни в одной из аптек: " ++ text)) ∧
        ((∀ tuple, lp.TextTooLongVoice ≠ (toMessage tuple).1) →
          (∀ text, lp.TextTooLongVoice ≠
            "Не нашел данные лекарства ни в одной из аптек: " ++ text) →
          ∀ c, Event.SendMessage c lp.TextTooLongVoice ∉ rest)) ∧
      (∃ rest, (Longpoll.handleVoice lp ctx s).2.trace =
          s.trace ++ Event.GetFile voice.FileId :: rest ∧
        (∀ file, lp.GetFile s.trace voice.FileId = .ok file →
          ∃ rest1, rest = Event.HttpGet (lp.FileURL file) :: rest1 ∧
            ∀ resp, lp.HttpGet (s.trace ++ [Event.GetFile voice.FileId]) (lp.FileURL file) =
                .ok resp →
              ∃ rest2, rest1 =
                Event.CreateTranscription
                  { Model := Whisper1, Reader := resp.Body, FilePath := file.FilePath,
                    Prompt := "Парацетамол, ТайлолХот, Тримол", Language := "ru" } :: rest2) ∧
        (∀ c t, Event.SendMessage c t ∈ rest →
          c = ctx.EffectiveMessage.Chat.Id ∧
          ∃ trace req, lp.CreateTranscription trace req = .ok t) ∧
        ((∀ trace req, lp.CreateTranscription trace req ≠ .ok lp.TextTooLongVoice) →
          ∀ c, Event.SendMessage c lp.TextTooLongVoice ∉ rest))) := by
  constructor
  · intro hd
    constructor
    · unfold handleVoice
      simp only [hv]
      rw [if_pos hd]
      rfl
    · unfold Longpoll.handleVoice
      simp only [hv]
      rw [if_pos hd]
      rfl
  · intro hd
    constructor
    · obtain ⟨rest1, ht1, hq, hpin⟩ := transcribeVoice_attempt lp voice s
      obtain ⟨tail, h1, h2⟩ := handleVoice_accepted_trace lp ctx voice s hv hd
      have hsend : ∀ c t, Event.SendMessage c t ∈ rest1 ++ tail →
          c = ctx.EffectiveMessage.Chat.Id ∧
          ∃ text trace req, lp.CreateTranscription trace req = .ok text ∧
            ((∃ tuple, t = (toMessage tuple).1) ∨
              t = "Не нашел данные лекарства ни в одной из аптек: " ++ text) := by
        intro c t h
        rcases List.mem_append.mp h with h | h
        · have := hq _ h
          simp [isTranscriptionEvent] at this
        · exact h2 c t h
      refine ⟨rest1 ++ tail, ?_, ?_, hsend, ?_⟩
      · rw [h1, ht1]
        simp
      · intro file hf
        obtain ⟨r1, hr1, hp2⟩ := hpin file hf
        refine ⟨r1 ++ tail, by rw [hr1]; rfl, ?_⟩
        intro resp hr
        obtain ⟨r2, hr2⟩ := hp2 resp hr
        exact ⟨r2 ++ tail, by rw [hr2]; rfl⟩
      · intro hT1 hT2 c hmem
        obtain ⟨_, text, _, _, _, h | h⟩ := hsend c _ hmem
        · obtain ⟨tuple, h⟩ := h
          exact hT1 tuple h
        · exact hT2 text h
    · obtain ⟨rest, h1, hpin, h2⟩ := longpoll_handleVoice_accepted_trace lp ctx voice s hv hd
      refine ⟨rest, h1, hpin, h2, ?_⟩
      intro hT c hmem
      obtain ⟨_, trace, req, h⟩ := h2 c _ hmem
      exact hT trace req h

/-- Witness for C1, amended: a voice message of 25 seconds is answered with the rejection text
alone; one of 5 seconds starts with `GetFile`, the download and `CreateTranscription`, and is not
answered with the rejection text, by either handler. -/
theorem handleVoice_duration_gate_witness :
    ((25 : Int) > 20 ∧
      handleVoice (demoWorld "Парацетамол" demoTuples none none) (voiceCtx 25) emptyState =
        (Outcome.returned none,
          { trace := [Event.SendMessage 7 "Голосовое сообщение слишком длинное"],
            store := emptyState.store })) ∧
    ((5 : Int) ≤ 20 ∧
      (∃ rest2, (handleVoice (demoWorld "Парацетамол" demoTuples none none) (voiceCtx 5)
          emptyState).2.trace =
          Event.GetFile "voice-1" ::
            Event.HttpGet "https://api.telegram.org/file/bot/voice/file_1.oga" ::
            Event.CreateTranscription
              { Model := "whisper-1", Reader := 1, FilePath := "voice/file_1.oga",
                Prompt := "Парацетамол, ТайлолХот, Тримол", Language := "ru" } :: rest2 ∧
        ∀ c, Event.SendMessage c "Голосовое сообщение слишком длинное" ∉
          Event.HttpGet "https://api.telegram.org/file/bot/voice/file_1.oga" ::
            Event.CreateTranscription
              { Model := "whisper-1", Reader := 1, FilePath := "voice/file_1.oga",
                Prompt := "Парацетамол, ТайлолХот, Тримол", Language := "ru" } :: rest2) ∧
      ∃ rest, (Longpoll.handleVoice (demoWorld "Парацетамол" demoTuples none none) (voiceCtx 5)
          emptyState).2.trace = Event.GetFile "voice-1" :: rest ∧
        ∀ c, Event.SendMessage c "Голосовое сообщение слишком длинное" ∉ rest) := by
  refine ⟨⟨by decide, ?_⟩, ⟨by decide, ?_, ?_⟩⟩
  · exact ((handleVoice_duration_gate (demoWorld "Парацетамол" demoTuples none none)
      (voiceCtx 25) _ emptyState rfl).1 (by decide)).1
  · obtain ⟨rest, h1, hpin, _, hno⟩ := ((handleVoice_duration_gate
      (demoWorld "Парацетамол" demoTuples none none) (voiceCtx 5) _ emptyState rfl).2
      (by decide)).1
    obtain ⟨rest1, hr1, hp2⟩ := hpin { FileId := "voice-1", FilePath := "voice/file_1.oga" } rfl
    obtain ⟨rest2, hr2⟩ := hp2 { Body := 1 } rfl
    have hno' := hno
      (by
        intro tuple h
        have := congrArg (fun x => x.data.head?) h
        simp [demoWorld, toMessage] at this)
      (by
        intro text h
        have := congrArg (fun x => x.data.head?) h
        simp [demoWorld] at this)
    subst hr2
    subst hr1
    exact ⟨rest2, h1, hno'⟩
  · obtain ⟨rest, h1, _, _, hno⟩ := ((handleVoice_duration_gate
      (demoWorld "Парацетамол" demoTuples none none) (voiceCtx 5) _ emptyState rfl).2
      (by decide)).2
    refine ⟨rest, h1, hno ?_⟩
    intro trace req h
    have h' : ("Парацетамол" : String) = "Голосовое сообщение слишком длинное" :=
      Except.ok.inj h
    have := congrArg (fun x => x.data.head?) h'
    simp at this

/-- C2. Registration is atomic. After `handleWebAppApteka` the persisted rows are either
unchanged, or they are the old rows plus the new pharmacy, under the identifier `AptekaInsert`
returned, and plus its owner, whose `AptekaId` is that identifier and whose `ChatId` is the
requesting chat. If `UserInsert` fails, the callback returns that error although the pharmacy row
is already written inside the transaction; the transaction is rolled back, not committed, and the
persisted rows are unchanged. -/
theorem handleWebAppApteka_atomic (lp : World) (chat : Chat) (apteka : Apteka) (s : State) :
    ((handleWebAppApteka lp chat apteka s).2.store = s.store ∨
      ∃ tx aptekaId, lp.Begin s.trace = .ok tx ∧
        lp.AptekaInsert (s.trace ++ [Event.Begin]) tx apteka = .ok aptekaId ∧
        (handleWebAppApteka lp chat apteka s).2.store =
          { aptekas := s.store.aptekas ++ [(aptekaId, apteka)],
            users := s.store.users ++ [{ ChatId := chat.Id, AptekaId := aptekaId }] }) ∧
    (∀ tx aptekaId err, lp.Begin s.trace = .ok tx →
      lp.AptekaInsert (s.trace ++ [Event.Begin]) tx apteka = .ok aptekaId →
      lp.UserInsert (s.trace ++ [Event.Begin, Event.AptekaInsert tx apteka]) tx
        { ChatId := chat.Id, AptekaId := aptekaId } = some err →
      (handleWebAppAptekaCallback lp chat apteka tx (emit Event.Begin s)).1 = (false, some err) ∧
      (handleWebAppAptekaCallback lp chat apteka tx (emit Event.Begin s)).2.store.aptekas =
        s.store.aptekas ++ [(aptekaId, apteka)] ∧
      handleWebAppApteka lp chat apteka s =
        (some err,
          { trace := s.trace ++ [Event.Begin, Event.AptekaInsert tx apteka,
              Event.UserInsert tx { ChatId := chat.Id, AptekaId := aptekaId },
              Event.Rollback tx],
            store := s.store })) := by
  constructor
  · unfold handleWebAppApteka
    rw [registration_cases]
    cases hb : lp.Begin s.trace with
    | error err => exact Or.inl rfl
    | ok tx =>
      simp only []
      cases ha : lp.AptekaInsert (s.trace ++ [Event.Begin]) tx apteka with
      | error err => exact Or.inl rfl
      | ok aptekaId =>
        simp only []
        cases hu : lp.UserInsert (s.trace ++ [Event.Begin, Event.AptekaInsert tx apteka]) tx
            { ChatId := chat.Id, AptekaId := aptekaId } with
        | some err => exact Or.inl rfl
        | none =>
          simp only []
          cases hc : lp.Commit (s.trace ++ [Event.Begin, Event.AptekaInsert tx apteka,
              Event.UserInsert tx { ChatId := chat.Id, AptekaId := aptekaId }]) tx with
          | some err => exact Or.inl rfl
          | none => exact Or.inr ⟨tx, aptekaId, rfl, ha, rfl⟩
  · intro tx aptekaId err hb ha hu
    refine ⟨?_, ?_, ?_⟩
    · simp [handleWebAppAptekaCallback, AptekaInsert, UserInsert, emit, ha, hu]
    · simp [handleWebAppAptekaCallback, AptekaInsert, UserInsert, emit, ha, hu]
    · unfold handleWebAppApteka
      rw [registration_cases]
      simp only [hb, ha, hu]

/-- Witness for C2: the owner insert fails with a constraint violation after the pharmacy got
identifier 42; the callback returns the error, the transaction ends with a rollback and the
database is still empty. -/
theorem handleWebAppApteka_atomic_witness :
    (handleWebAppAptekaCallback
        (demoWorld "" [] none (some "pq: duplicate key value violates unique constraint"))
        { Id := 7 } demoApteka 1 (emit Event.Begin emptyState)).1 =
      (false, some "pq: duplicate key value violates unique constraint") ∧
    (handleWebAppAptekaCallback
        (demoWorld "" [] none (some "pq: duplicate key value violates unique constraint"))
        { Id := 7 } demoApteka 1 (emit Event.Begin emptyState)).2.store.aptekas =
      emptyState.store.aptekas ++ [(42, demoApteka)] ∧
    handleWebAppApteka
        (demoWorld "" [] none (some "pq: duplicate key value violates unique constraint"))
        { Id := 7 } demoApteka emptyState =
      (some "pq: duplicate key value violates unique constraint",
        { trace := emptyState.trace ++ [Event.Begin, Event.AptekaInsert 1 demoApteka,
            Event.UserInsert 1 { ChatId := 7, AptekaId := 42 }, Event.Rollback 1],
          store := emptyState.store }) :=
  (handleWebAppApteka_atomic
    (demoWorld "" [] none (some "pq: duplicate key value violates unique constraint"))
    { Id := 7 } demoApteka emptyState).2 1 42
    "pq: duplicate key value violates unique constraint" rfl rfl rfl

/-- C3. All reads of one query run in a single transaction. For every token list,
`searchApteka` opens exactly one transaction (one `Begin` event, nothing written). If it opens
with handle `tx`, `MedicineSearch` is called on `tx` with the tokens; if that fails with `err`
the callback returns the nil list with `err`, `AptekaSearch` is not called and the transaction is
rolled back; otherwise `AptekaSearch` is called on the same `tx` with exactly the identifiers
`MedicineSearch` returned, the callback returns the result of `AptekaSearch`, and so does
`searchApteka` once the commit succeeds. -/
theorem searchApteka_single_transaction (lp : World) (names : List String) (s : State) :
    (∃ evs, (searchApteka lp names s).2 =
        { trace := s.trace ++ Event.Begin :: evs, store := s.store } ∧ Event.Begin ∉ evs) ∧
    (∀ err, lp.Begin s.trace = .error err →
      searchApteka lp names s = (([], some err), { trace := s.trace ++ [Event.Begin], store := s.store })) ∧
    (∀ tx, lp.Begin s.trace = .ok tx →
      (∀ err, (lp.MedicineSearch (s.trace ++ [Event.Begin]) tx names).2 = some err →
        (searchAptekaCallback lp names tx (emit Event.Begin s)).1 = ([], some err) ∧
        searchApteka lp names s =
          (([], some err),
            { trace := s.trace ++ [Event.Begin, Event.MedicineSearch tx names, Event.Rollback tx],
              store := s.store })) ∧
      ((lp.MedicineSearch (s.trace ++ [Event.Begin]) tx names).2 = none →
        (searchAptekaCallback lp names tx (emit Event.Begin s)).1 =
          lp.AptekaSearch (s.trace ++ [Event.Begin, Event.MedicineSearch tx names]) tx
            (lp.MedicineSearch (s.trace ++ [Event.Begin]) tx names).1 ∧
        (∃ closing, (closing = Event.Commit tx ∨ closing = Event.Rollback tx) ∧
          (searchApteka lp names s).2.trace =
            s.trace ++ [Event.Begin, Event.MedicineSearch tx names,
              Event.AptekaSearch tx (lp.MedicineSearch (s.trace ++ [Event.Begin]) tx names).1,
              closing]) ∧
        ((lp.AptekaSearch (s.trace ++ [Event.Begin, Event.MedicineSearch tx names]) tx
            (lp.MedicineSearch (s.trace ++ [Event.Begin]) tx names).1).2 = none →
          lp.Commit (s.trace ++ [Event.Begin, Event.MedicineSearch tx names,
              Event.AptekaSearch tx (lp.MedicineSearch (s.trace ++ [Event.Begin]) tx names).1])
            tx = none →
          searchApteka lp names s =
            (lp.AptekaSearch (s.trace ++ [Event.Begin, Event.MedicineSearch tx names]) tx
                (lp.MedicineSearch (s.trace ++ [Event.Begin]) tx names).1,
              { trace := s.trace ++ [Event.Begin, Event.MedicineSearch tx names,
                  Event.AptekaSearch tx
                    (lp.MedicineSearch (s.trace ++ [Event.Begin]) tx names).1,
                  Event.Commit tx],
                store := s.store })))) := by
  refine ⟨?_, ?_, ?_⟩
  · obtain ⟨evs, h1, h2⟩ := searchApteka_state lp names s
    exact ⟨evs, h1, fun h => (h2 _ h).2 rfl⟩
  · intro err hb
    simp [searchApteka, Transact, hb, emit]
    rfl
  · intro tx hb
    refine ⟨?_, ?_⟩
    · intro err hm
      simp [searchApteka, Transact, hb, emit, searchAptekaCallback, MedicineSearch, hm]
    · intro hm
      refine ⟨?_, ?_, ?_⟩
      · simp [emit, searchAptekaCallback, MedicineSearch, AptekaSearch, hm]
      · simp only [searchApteka, Transact, hb, emit, searchAptekaCallback, MedicineSearch, hm,
          AptekaSearch]
        split
        · exact ⟨Event.Rollback tx, Or.inr rfl, by simp⟩
        · split
          · exact ⟨Event.Commit tx, Or.inl rfl, by simp⟩
          · exact ⟨Event.Commit tx, Or.inl rfl, by simp⟩
      · intro ha hc
        simp [searchApteka, Transact, hb, emit, searchAptekaCallback, MedicineSearch, hm,
          AptekaSearch, ha, hc]
        exact Prod.ext rfl ha.symm

/-- Witness for C3: with the tokens of "Парацетамол, Тримол" the search runs in transaction 1,
passes the identifiers found to the pharmacy search and returns its groups; when the medicine
lookup fails nothing else is read and the transaction is rolled back; when no transaction can be
opened nothing is read at all. -/
theorem searchApteka_single_transaction_witness :
    searchApteka (demoWorld "Парацетамол, Тримол" demoTuples none none)
        ["Парацетамол", "Тримол"] emptyState =
      ((demoTuples, none),
        { trace := [Event.Begin, Event.MedicineSearch 1 ["Парацетамол", "Тримол"],
            Event.AptekaSearch 1 [0, 1], Event.Commit 1],
          store := emptyState.store }) ∧
    searchApteka searchFailsWorld ["Парацетамол", "Тримол"] emptyState =
      (([], some "driver: bad connection"),
        { trace := [Event.Begin, Event.MedicineSearch 1 ["Парацетамол", "Тримол"],
            Event.Rollback 1],
          store := emptyState.store }) ∧
    searchApteka beginFailsWorld ["Парацетамол", "Тримол"] emptyState =
      (([], some "dial tcp: connection refused"),
        { trace := [Event.Begin], store := emptyState.store }) :=
  ⟨(((searchApteka_single_transaction (demoWorld "Парацетамол, Тримол" demoTuples none none)
      ["Парацетамол", "Тримол"] emptyState).2.2 1 rfl).2 rfl).2.2 rfl rfl,
   (((searchApteka_single_transaction searchFailsWorld
      ["Парацетамол", "Тримол"] emptyState).2.2 1 rfl).1 "driver: bad connection" rfl).2,
   (searchApteka_single_transaction beginFailsWorld
      ["Парацетамол", "Тримол"] emptyState).2.1 "dial tcp: connection refused" rfl⟩

/-- C4. An accepted voice query whose search returns no pharmacy group is answered with exactly
one message: the text "Не нашел данные лекарства ни в одной из аптек: " followed by the
transcribed text as the transcription client returned it. It is sent after the search, nothing
else is sent, no pause is made, and the handler returns the result of that send. -/
theorem handleVoice_empty_result (lp : World) (ctx : Context) (voice : Voice) (s s1 s2 : State)
    (text : String)
    (hv : ctx.EffectiveMessage.Voice = some voice) (hd : voice.Duration ≤ 20)
    (ht : transcribeVoice lp voice s = ((text, none), s1))
    (hs : searchApteka lp (medicineNames text) s1 = (([], none), s2)) :
    handleVoice lp ctx s =
      (Outcome.returned (lp.SendMessage s2.trace ctx.EffectiveMessage.Chat.Id
          ("Не нашел данные лекарства ни в одной из аптек: " ++ text)),
        { trace := s2.trace ++ [Event.SendMessage ctx.EffectiveMessage.Chat.Id
            ("Не нашел данные лекарства ни в одной из аптек: " ++ text)],
          store := s.store }) ∧
    sends (handleVoice lp ctx s).2.trace =
      sends s.trace ++ [(ctx.EffectiveMessage.Chat.Id,
        "Не нашел данные лекарства ни в одной из аптек: " ++ text)] ∧
    sleeps (handleVoice lp ctx s).2.trace = sleeps s.trace ∧
    ∃ trace req, lp.CreateTranscription trace req = .ok text := by
  have h := handleVoice_searched lp ctx voice s s1 s2 text [] hv hd ht hs
  simp only [List.length_nil, if_true] at h
  have hq1 := transcribeVoice_quiet lp voice s
  have hq2 := searchApteka_quiet lp (medicineNames text) s1
  have hst2 := searchApteka_store lp (medicineNames text) s1
  obtain ⟨rest, hst1, _⟩ := transcribeVoice_state lp voice s
  rw [ht] at hq1 hst1
  rw [hs] at hq2 hst2
  simp only [] at hq1 hq2 hst1 hst2
  have hstore : s2.store = s.store := by rw [hst2, hst1]
  refine ⟨by rw [h, hstore], ?_, ?_, transcribeVoice_text lp voice s s1 text ht⟩
  · rw [h]
    simp only [sends_append, hq2.1, hq1.1]
    simp [sends]
  · rw [h]
    simp only [sleeps_append, hq2.2, hq1.2]
    simp [sleeps]

/-- Witness for C4: the transcription "Парацетамол, Тримол" is found in no pharmacy; the one
message sent is the not-found text followed by the transcription as it was returned. -/
theorem handleVoice_empty_result_witness :
    handleVoice (demoWorld "Парацетамол, Тримол" [] none none) (voiceCtx 5) emptyState =
      (Outcome.returned none,
        { trace :=
            [Event.GetFile "voice-1",
              Event.HttpGet "https://api.telegram.org/file/bot/voice/file_1.oga",
              Event.CreateTranscription
                { Model := "whisper-1", Reader := 1, FilePath := "voice/file_1.oga",
                  Prompt := "Парацетамол, ТайлолХот, Тримол", Language := "ru" },
              Event.BodyClose 1, Event.Begin,
              Event.MedicineSearch 1 ["Парацетамол", "Тримол"],
              Event.AptekaSearch 1 [0, 1], Event.Commit 1,
              Event.SendMessage 7
                "Не нашел данные лекарства ни в одной из аптек: Парацетамол, Тримол"],
          store := emptyState.store }) :=
  (handleVoice_empty_result (demoWorld "Парацетамол, Тримол" [] none none) (voiceCtx 5)
    { FileId := "voice-1", Duration := 5 } emptyState _ _ "Парацетамол, Тримол"
    rfl (by decide) rfl rfl).1

/-- C5. Paced ordered delivery. When the search of an accepted voice query returns the groups
`tuples`, everything the handler does after the search is: for each group in the order returned,
send `toMessage` of the group to the chat and then sleep `2 * time.Second` (and, for an empty
list, send the not-found message). No message is sent and no pause is made before the search
has returned: when the delivery starts the last event is the commit of the search transaction.
The text of a result message is
"Аптека: <name>\nАдрес: <address>\nPhone: <phone>\n\nВ наличии: <names joined by ", ">". -/
theorem handleVoice_paced_delivery (lp : World) (ctx : Context) (voice : Voice)
    (s s1 s2 : State) (text : String) (tuples : List Tuple2)
    (hv : ctx.EffectiveMessage.Voice = some voice) (hd : voice.Duration ≤ 20)
    (ht : transcribeVoice lp voice s = ((text, none), s1))
    (hs : searchApteka lp (medicineNames text) s1 = ((tuples, none), s2)) :
    (handleVoice lp ctx s).2.trace =
      s2.trace ++
        (tuples.flatMap fun t =>
          [Event.SendMessage ctx.EffectiveMessage.Chat.Id (toMessage t).1,
            Event.Sleep (2 * Second)]) ++
        (if tuples = [] then
          [Event.SendMessage ctx.EffectiveMessage.Chat.Id
            ("Не нашел данные лекарства ни в одной из аптек: " ++ text)]
        else []) ∧
    (tuples ≠ [] →
      sends (handleVoice lp ctx s).2.trace =
        sends s.trace ++ tuples.map (fun t => (ctx.EffectiveMessage.Chat.Id, (toMessage t).1)) ∧
      sleeps (handleVoice lp ctx s).2.trace =
        sleeps s.trace ++ List.replicate tuples.length (2 * Second)) ∧
    sends s2.trace = sends s.trace ∧
    sleeps s2.trace = sleeps s.trace ∧
    (∃ tx, s2.trace.getLast? = some (Event.Commit tx)) ∧
    ∀ (a : Apteka) (ms : List String),
      (toMessage (a, ms)).1 =
        "Аптека: " ++ a.Name ++ "\nАдрес: " ++ a.Address ++ "\nPhone: " ++ a.Phone ++
          "\n\nВ наличии: " ++ ", ".intercalate ms := by
  have h := handleVoice_searched lp ctx voice s s1 s2 text tuples hv hd ht hs
  have hq1 := transcribeVoice_quiet lp voice s
  have hq2 := searchApteka_quiet lp (medicineNames text) s1
  obtain ⟨tx, _, hc⟩ := searchApteka_committed lp (medicineNames text) s1 s2 tuples hs
  rw [ht] at hq1
  rw [hs] at hq2
  simp only [] at hq1 hq2
  have hsend : ∀ l : List Tuple2,
      sends (l.flatMap fun t =>
        [Event.SendMessage ctx.EffectiveMessage.Chat.Id (toMessage t).1,
          Event.Sleep (2 * Second)]) =
        l.map (fun t => (ctx.EffectiveMessage.Chat.Id, (toMessage t).1)) := by
    intro l
    induction l with
    | nil => rfl
    | cons t l ih =>
      rw [List.flatMap_cons, sends_append, ih]
      rfl
  have hsleep : ∀ l : List Tuple2,
      sleeps (l.flatMap fun t =>
        [Event.SendMessage ctx.EffectiveMessage.Chat.Id (toMessage t).1,
          Event.Sleep (2 * Second)]) = List.replicate l.length (2 * Second) := by
    intro l
    induction l with
    | nil => rfl
    | cons t l ih =>
      rw [List.flatMap_cons, sleeps_append, ih]
      rfl
  refine ⟨?_, ?_, hq2.1.trans hq1.1, hq2.2.trans hq1.2, ⟨tx, hc⟩, ?_⟩
  · rw [h]
    by_cases hnil : tuples = []
    · subst hnil
      simp
    · have hlen : tuples.length ≠ 0 := fun hl => hnil (List.length_eq_zero.mp hl)
      simp [hnil, hlen]
  · intro hnil
    have hlen : tuples.length ≠ 0 := fun hl => hnil (List.length_eq_zero.mp hl)
    rw [h, if_neg hlen]
    simp [sends_append, sleeps_append, hsend, hsleep, hq2.1, hq1.1, hq2.2, hq1.2]
  · intro a ms
    have hlit : ∀ x : String, "\n\n" ++ ("В наличии: " ++ x) = "\n\nВ наличии: " ++ x := by
      intro x
      rw [← String.append_assoc]
      rfl
    simp [toMessage, Join, String.append_assoc, hlit]

/-- Witness for C5: two groups are delivered in the order returned, each send followed by a
pause of two seconds, after the commit of the search transaction. -/
theorem handleVoice_paced_delivery_witness :
    sends (handleVoice (demoWorld "Парацетамол, ТайлолХот" demoTuples none none) (voiceCtx 5)
        emptyState).2.trace =
      sends emptyState.trace ++ demoTuples.map (fun t => ((voiceCtx 5).EffectiveMessage.Chat.Id,
        (toMessage t).1)) ∧
    sleeps (handleVoice (demoWorld "Парацетамол, ТайлолХот" demoTuples none none) (voiceCtx 5)
        emptyState).2.trace =
      sleeps emptyState.trace ++ List.replicate demoTuples.length (2 * Second) :=
  (handleVoice_paced_delivery (demoWorld "Парацетамол, ТайлолХот" demoTuples none none)
    (voiceCtx 5) { FileId := "voice-1", Duration := 5 } emptyState _ _ "Парацетамол, ТайлолХот"
    demoTuples rfl (by decide) rfl rfl).2.1 (by decide)

/-- Counterexample to C6 as stated: for the transcription "Парацетамол,, Тримол" the token list
handed to the medicine lookup contains the empty string; so does the one of the empty text. -/
theorem handleVoice_passes_empty_token :
    (handleVoice (demoWorld "Парацетамол,, Тримол" [] none none) (voiceCtx 5)
        emptyState).2.trace =
      [Event.GetFile "voice-1",
        Event.HttpGet "https://api.telegram.org/file/bot/voice/file_1.oga",
        Event.CreateTranscription
          { Model := "whisper-1", Reader := 1, FilePath := "voice/file_1.oga",
            Prompt := "Парацетамол, ТайлолХот, Тримол", Language := "ru" },
        Event.BodyClose 1, Event.Begin,
        Event.MedicineSearch 1 ["Парацетамол", "", "Тримол"],
        Event.AptekaSearch 1 [0, 1, 2], Event.Commit 1,
        Event.SendMessage 7
          "Не нашел данные лекарства ни в одной из аптек: Парацетамол,, Тримол"] ∧
    "" ∈ medicineNames "Парацетамол,, Тримол" ∧
    medicineNames "" = [""] := by
  refine ⟨rfl, ?_, rfl⟩
  decide

/-- C6, amended. The token list `handleVoice` hands to `searchApteka`, and so to the medicine
lookup, is the transcribed text split on "," with each piece trimmed, empty tokens included:
it has one token for each piece (the number of commas plus one), and the empty string is among
the tokens exactly when some piece consists of white space only. -/
theorem medicineNames_keeps_empty_tokens (text : String) :
    (medicineNames text).length = text.data.count ',' + 1 ∧
    ("" ∈ medicineNames text ↔
      ∃ piece ∈ Split text ',', ∀ c ∈ piece.data, isSpace c = true) ∧
    ∀ (lp : World) (ctx : Context) (voice : Voice) (s s1 : State) (tx : TransactionOps),
      ctx.EffectiveMessage.Voice = some voice → voice.Duration ≤ 20 →
      transcribeVoice lp voice s = ((text, none), s1) → lp.Begin s1.trace = .ok tx →
      Event.MedicineSearch tx (medicineNames text) ∈ (handleVoice lp ctx s).2.trace := by
  refine ⟨?_, ?_, ?_⟩
  · simp [medicineNames, Split, splitChars_length]
  · unfold medicineNames
    rw [List.mem_map]
    constructor
    · rintro ⟨piece, hp, h⟩
      exact ⟨piece, hp, (TrimSpace_eq_empty_iff piece).mp h⟩
    · rintro ⟨piece, hp, h⟩
      exact ⟨piece, hp, (TrimSpace_eq_empty_iff piece).mpr h⟩
  · intro lp ctx voice s s1 tx hv hd ht hb
    obtain ⟨tail, h⟩ := handleVoice_trace_extends_search lp ctx voice s s1 text hv hd ht
    rw [h]
    exact List.mem_append_left _ (searchApteka_calls_MedicineSearch lp _ s1 tx hb)

/-- Witness for C6, amended: the tokens of "Парацетамол,, Тримол" reach the medicine lookup of
transaction 1. -/
theorem medicineNames_keeps_empty_tokens_witness :
    Event.MedicineSearch 1 (medicineNames "Парацетамол,, Тримол") ∈
      (handleVoice (demoWorld "Парацетамол,, Тримол" [] none none) (voiceCtx 5)
        emptyState).2.trace :=
  (medicineNames_keeps_empty_tokens "Парацетамол,, Тримол").2.2
    (demoWorld "Парацетамол,, Тримол" [] none none) (voiceCtx 5)
    { FileId := "voice-1", Duration := 5 } emptyState _ 1 rfl (by decide) rfl rfl

/-- C7. The normalizer is idempotent: trimming a trimmed string changes nothing, and so
trimming every token of the token list of a transcribed text gives the same token list. -/
theorem TrimSpace_idempotent (s : String) (text : String) :
    TrimSpace (TrimSpace s) = TrimSpace s ∧
    (medicineNames text).map TrimSpace = medicineNames text := by
  refine ⟨TrimSpace_twice s, ?_⟩
  unfold medicineNames
  rw [List.map_map]
  apply List.map_congr_left
  intro piece _
  exact TrimSpace_twice piece

/-- C8. Validation failure is reported and writes nothing. A message without web-app data makes
`handleWebAppData` return `nil` with no action at all. When `ParseAndValidate` rejects the
payload, the handler deletes the incoming message, logs the payload and sends
"Что-то пошло не так - попробуйте еще раз" to the chat, returning the result of that send: no
transaction is opened, no insert runs, the success message is not sent, the rows are unchanged. -/
theorem handleWebAppData_validation_failure (lp : World) (ctx : Context) (s : State) :
    (ctx.EffectiveMessage.WebAppData = none → handleWebAppData lp ctx s = (none, s)) ∧
    (∀ webAppData err, ctx.EffectiveMessage.WebAppData = some webAppData →
      lp.ParseAndValidate webAppData.Data = .error err →
      ∃ evs, handleWebAppData lp ctx s =
          (lp.SendMessage (s.trace ++
              [Event.DeleteMessage ctx.EffectiveMessage.Chat.Id ctx.EffectiveMessage.MessageId,
                Event.LogPrintf ("[ChatId=" ++ toString ctx.EffectiveMessage.Chat.Id ++
                  "] Got json from WebApp: " ++ webAppData.Data)])
              ctx.EffectiveMessage.Chat.Id "Что-то пошло не так - попробуйте еще раз",
            { trace := s.trace ++ evs, store := s.store }) ∧
        evs = [Event.DeleteMessage ctx.EffectiveMessage.Chat.Id ctx.EffectiveMessage.MessageId,
          Event.LogPrintf ("[ChatId=" ++ toString ctx.EffectiveMessage.Chat.Id ++
            "] Got json from WebApp: " ++ webAppData.Data),
          Event.SendMessage ctx.EffectiveMessage.Chat.Id
            "Что-то пошло не так - попробуйте еще раз"] ∧
        (∀ e ∈ evs, isDatabaseEvent e = false) ∧
        sends evs =
          [(ctx.EffectiveMessage.Chat.Id, "Что-то пошло не так - попробуйте еще раз")] ∧
        ∀ c, Event.SendMessage c "Аптека успешно создана ✅" ∉ evs) := by
  constructor
  · intro h
    unfold handleWebAppData
    simp only [h]
  · intro webAppData err h hp
    refine ⟨_, ?_, rfl, ?_, ?_, ?_⟩
    · unfold handleWebAppData
      simp only [h, hp, sendText, emit, List.append_assoc, List.singleton_append,
        List.cons_append, List.nil_append]
    · simp [isDatabaseEvent]
    · simp [sends]
    · intro c hmem
      simp only [List.mem_cons, List.mem_singleton, Event.SendMessage.injEq, List.not_mem_nil,
        or_false] at hmem
      rcases hmem with hmem | hmem | hmem
      · cases hmem
      · cases hmem
      · have := congrArg (fun x => x.data.head?) hmem.2
        simp at this

/-- Witness for C8: a message without web-app data is ignored; a payload that fails validation
is answered with the failure message. -/
theorem handleWebAppData_validation_failure_witness :
    handleWebAppData (demoWorld "" [] none none) (webAppCtx none) emptyState =
      (none, emptyState) ∧
    ∃ evs, handleWebAppData (demoWorld "" [] none none) (webAppCtx (some "not json"))
          emptyState =
        (none, { trace := emptyState.trace ++ evs, store := emptyState.store }) ∧
      sends evs = [(7, "Что-то пошло не так - попробуйте еще раз")] := by
  refine ⟨(handleWebAppData_validation_failure (demoWorld "" [] none none) (webAppCtx none)
    emptyState).1 rfl, ?_⟩
  obtain ⟨evs, h1, _, _, h2, _⟩ :=
    (handleWebAppData_validation_failure (demoWorld "" [] none none)
      (webAppCtx (some "not json")) emptyState).2 { Data := "not json" } "validation failed"
      rfl rfl
  exact ⟨evs, h1, h2⟩

/-- Counterexample to C9 as stated: the owner insert fails, the handler returns the error and
sends nothing to the chat, so nobody is told to retry. -/
theorem handleWebAppApteka_no_retry_message :
    (handleWebAppApteka
        (demoWorld "" [] none (some "pq: duplicate key value violates unique constraint"))
        { Id := 7 } demoApteka emptyState).1 =
      some "pq: duplicate key value violates unique constraint" ∧
    sends (handleWebAppApteka
        (demoWorld "" [] none (some "pq: duplicate key value violates unique constraint"))
        { Id := 7 } demoApteka emptyState).2.trace = [] := by
  constructor <;> rfl

/-- C9, amended. When the registration transaction fails with `err` (the transaction cannot be
opened, `AptekaInsert` fails, `UserInsert` fails, or the commit fails), `handleWebAppApteka`
returns `err` to the dispatcher and sends no message to the chat, so the raw error text reaches
no chat. The `Error` callback of the dispatcher writes the error to the log and sends nothing
either. -/
theorem handleWebAppApteka_failure_silent (lp : World) (chat : Chat) (apteka : Apteka)
    (s : State) (err : Error)
    (hfail : lp.Begin s.trace = .error err ∨
      ∃ tx, lp.Begin s.trace = .ok tx ∧
        (lp.AptekaInsert (s.trace ++ [Event.Begin]) tx apteka = .error err ∨
          ∃ aptekaId, lp.AptekaInsert (s.trace ++ [Event.Begin]) tx apteka = .ok aptekaId ∧
            (lp.UserInsert (s.trace ++ [Event.Begin, Event.AptekaInsert tx apteka]) tx
                { ChatId := chat.Id, AptekaId := aptekaId } = some err ∨
              (lp.UserInsert (s.trace ++ [Event.Begin, Event.AptekaInsert tx apteka]) tx
                  { ChatId := chat.Id, AptekaId := aptekaId } = none ∧
                lp.Commit (s.trace ++ [Event.Begin, Event.AptekaInsert tx apteka,
                  Event.UserInsert tx { ChatId := chat.Id, AptekaId := aptekaId }]) tx =
                  some err)))) :
    (handleWebAppApteka lp chat apteka s).1 = some err ∧
    sends (handleWebAppApteka lp chat apteka s).2.trace = sends s.trace ∧
    ∀ st : State,
      dispatcherError err st =
        (DispatcherAction.Noop,
          { trace := st.trace ++
              [Event.LogPrintln ("an error occurred while handling update: " ++ err)],
            store := st.store }) ∧
      sends (dispatcherError err st).2.trace = sends st.trace := by
  refine ⟨?_, ?_, ?_⟩
  · unfold handleWebAppApteka
    rw [registration_cases]
    rcases hfail with hb | ⟨tx, hb, ha | ⟨aptekaId, ha, hu | ⟨hu, hc⟩⟩⟩
    · simp only [hb]
    · simp only [hb, ha]
    · simp only [hb, ha, hu]
    · simp only [hb, ha, hu, hc]
  · unfold handleWebAppApteka
    rw [registration_cases]
    rcases hfail with hb | ⟨tx, hb, ha | ⟨aptekaId, ha, hu | ⟨hu, hc⟩⟩⟩
    · simp [hb, sends_append, sends]
    · simp [hb, ha, sends_append, sends]
    · simp [hb, ha, hu, sends_append, sends]
    · simp [hb, ha, hu, hc, sends_append, sends]
  · intro st
    exact ⟨rfl, by simp [dispatcherError, emit, sends_append, sends]⟩

/-- Witness for C9, amended: the owner insert fails with a constraint violation. -/
theorem handleWebAppApteka_failure_silent_witness :
    (handleWebAppApteka
        (demoWorld "" [] none (some "pq: duplicate key value violates unique constraint"))
        { Id := 7 } demoApteka emptyState).1 =
      some "pq: duplicate key value violates unique constraint" ∧
    sends (handleWebAppApteka
        (demoWorld "" [] none (some "pq: duplicate key value violates unique constraint"))
        { Id := 7 } demoApteka emptyState).2.trace = sends emptyState.trace :=
  have h := handleWebAppApteka_failure_silent
    (demoWorld "" [] none (some "pq: duplicate key value violates unique constraint"))
    { Id := 7 } demoApteka emptyState "pq: duplicate key value violates unique constraint"
    (Or.inr ⟨1, rfl, Or.inr ⟨42, rfl, Or.inl rfl⟩⟩)
  ⟨h.1, h.2.1⟩

/-- C10. Delivery failures are swallowed. When the search of an accepted voice query returns a
non-empty list of groups the handler returns `nil` and every group is sent, in any world, hence
whatever the results of the sends are. When the transcription or the search fails, the error
returned is theirs and no send was attempted. The result of a send is returned on the two other
paths only: after an empty search result (the not-found message) and for a voice message longer
than 20 seconds (the rejection). -/
theorem handleVoice_swallows_send_errors (lp : World) (ctx : Context) (voice : Voice)
    (s : State) (hv : ctx.EffectiveMessage.Voice = some voice) :
    (voice.Duration ≤ 20 →
      (∀ s1 s2 text tuples, transcribeVoice lp voice s = ((text, none), s1) →
        searchApteka lp (medicineNames text) s1 = ((tuples, none), s2) → tuples ≠ [] →
        (handleVoice lp ctx s).1 = Outcome.returned none ∧
        sends (handleVoice lp ctx s).2.trace =
          sends s.trace ++
            tuples.map (fun t => (ctx.EffectiveMessage.Chat.Id, (toMessage t).1))) ∧
      (∀ err, (transcribeVoice lp voice s).1.2 = some err →
        (handleVoice lp ctx s).1 = Outcome.returned (some err) ∧
        sends (handleVoice lp ctx s).2.trace = sends s.trace) ∧
      (∀ s1 text err, transcribeVoice lp voice s = ((text, none), s1) →
        (searchApteka lp (medicineNames text) s1).1.2 = some err →
        (handleVoice lp ctx s).1 = Outcome.returned (some err) ∧
        sends (handleVoice lp ctx s).2.trace = sends s.trace) ∧
      (∀ s1 s2 text, transcribeVoice lp voice s = ((text, none), s1) →
        searchApteka lp (medicineNames text) s1 = (([], none), s2) →
        (handleVoice lp ctx s).1 =
          Outcome.returned (lp.SendMessage s2.trace ctx.EffectiveMessage.Chat.Id
            ("Не нашел данные лекарства ни в одной из аптек: " ++ text)))) ∧
    (voice.Duration > 20 →
      (handleVoice lp ctx s).1 =
        Outcome.returned
          (lp.SendMessage s.trace ctx.EffectiveMessage.Chat.Id lp.TextTooLongVoice)) := by
  refine ⟨fun hd => ⟨?_, ?_, ?_, ?_⟩, ?_⟩
  · intro s1 s2 text tuples ht hs hnil
    have h := handleVoice_searched lp ctx voice s s1 s2 text tuples hv hd ht hs
    have hlen : tuples.length ≠ 0 := fun hl => hnil (List.length_eq_zero.mp hl)
    rw [if_neg hlen] at h
    have hq1 := transcribeVoice_quiet lp voice s
    have hq2 := searchApteka_quiet lp (medicineNames text) s1
    rw [ht] at hq1
    rw [hs] at hq2
    simp only [] at hq1 hq2
    have hsend : ∀ l : List Tuple2,
        sends (l.flatMap fun t =>
          [Event.SendMessage ctx.EffectiveMessage.Chat.Id (toMessage t).1,
            Event.Sleep (2 * Second)]) =
          l.map (fun t => (ctx.EffectiveMessage.Chat.Id, (toMessage t).1)) := by
      intro l
      induction l with
      | nil => rfl
      | cons t l ih =>
        rw [List.flatMap_cons, sends_append, ih]
        rfl
    rw [h]
    simp [sends_append, hsend, hq2.1, hq1.1]
  · intro err he
    have hq1 := transcribeVoice_quiet lp voice s
    unfold handleVoice
    simp only [hv]
    rw [if_neg (by omega)]
    simp only [he]
    exact ⟨by first | rfl | trivial, hq1.1⟩
  · intro s1 text err ht he
    have hq1 := transcribeVoice_quiet lp voice s
    have hq2 := searchApteka_quiet lp (medicineNames text) s1
    rw [ht] at hq1
    simp only [] at hq1
    unfold handleVoice
    simp only [hv]
    rw [if_neg (by omega)]
    simp only [ht, he]
    exact ⟨by first | rfl | trivial, hq2.1.trans hq1.1⟩
  · intro s1 s2 text ht hs
    have h := handleVoice_searched lp ctx voice s s1 s2 text [] hv hd ht hs
    simp only [List.length_nil, if_true] at h
    rw [h]
  · intro hd
    unfold handleVoice
    simp only [hv]
    rw [if_pos hd]
    rfl

/-- Witness for C10: every send fails, both groups are sent all the same and the handler returns
`nil`; a failed transcription and a failed search are returned without any send; the failure of
the not-found message and of the rejection is returned. -/
theorem handleVoice_swallows_send_errors_witness :
    ((handleVoice (demoWorld "Парацетамол, ТайлолХот" demoTuples
          (some "Too Many Requests: retry after 5") none) (voiceCtx 5) emptyState).1 =
        Outcome.returned none ∧
      sends (handleVoice (demoWorld "Парацетамол, ТайлолХот" demoTuples
          (some "Too Many Requests: retry after 5") none) (voiceCtx 5) emptyState).2.trace =
        sends emptyState.trace ++
          demoTuples.map (fun t => ((voiceCtx 5).EffectiveMessage.Chat.Id, (toMessage t).1))) ∧
    ((handleVoice transcriptionFailsWorld (voiceCtx 5) emptyState).1 =
        Outcome.returned (some "error, status code: 500") ∧
      sends (handleVoice transcriptionFailsWorld (voiceCtx 5) emptyState).2.trace =
        sends emptyState.trace) ∧
    ((handleVoice searchFailsWorld (voiceCtx 5) emptyState).1 =
        Outcome.returned (some "driver: bad connection") ∧
      sends (handleVoice searchFailsWorld (voiceCtx 5) emptyState).2.trace =
        sends emptyState.trace) ∧
    (handleVoice (demoWorld "Тримол" [] (some "Too Many Requests: retry after 5") none)
        (voiceCtx 5) emptyState).1 =
      Outcome.returned (some "Too Many Requests: retry after 5") ∧
    (handleVoice (demoWorld "Тримол" [] (some "Too Many Requests: retry after 5") none)
        (voiceCtx 25) emptyState).1 =
      Outcome.returned (some "Too Many Requests: retry after 5") :=
  ⟨((handleVoice_swallows_send_errors (demoWorld "Парацетамол, ТайлолХот" demoTuples
      (some "Too Many Requests: retry after 5") none) (voiceCtx 5)
      { FileId := "voice-1", Duration := 5 } emptyState rfl).1 (by decide)).1
      _ _ "Парацетамол, ТайлолХот" demoTuples rfl rfl (by decide),
   ((handleVoice_swallows_send_errors transcriptionFailsWorld (voiceCtx 5)
      { FileId := "voice-1", Duration := 5 } emptyState rfl).1 (by decide)).2.1
      "error, status code: 500" rfl,
   ((handleVoice_swallows_send_errors searchFailsWorld (voiceCtx 5)
      { FileId := "voice-1", Duration := 5 } emptyState rfl).1 (by decide)).2.2.1
      _ "Парацетамол, Тримол" "driver: bad connection" rfl rfl,
   ((handleVoice_swallows_send_errors
      (demoWorld "Тримол" [] (some "Too Many Requests: retry after 5") none) (voiceCtx 5)
      { FileId := "voice-1", Duration := 5 } emptyState rfl).1 (by decide)).2.2.2
      _ _ "Тримол" rfl rfl,
   (handleVoice_swallows_send_errors
      (demoWorld "Тримол" [] (some "Too Many Requests: retry after 5") none) (voiceCtx 25)
      { FileId := "voice-1", Duration := 25 } emptyState rfl).2 (by decide)⟩

end Telegram
